import Mathlib

/-!
Verification of the RenderQ coordinator (SQLite store, scheduler, FastAPI
endpoints) against its natural-language specification.

The store (`src/core/database.py`) is modelled as three lists of rows; every
SQL statement is translated row-for-row (UPDATE = map over rows matching the
WHERE clause, DELETE = filter, INSERT = append).  Timestamps are integers
(seconds), floating progress values are rationals.  Opaque payload columns
that no modelled operation reads (plugin_data, metadata, command, environment,
frame ranges, log_path, hostname, ip, cpu_cores, memory_total, version) are
omitted; all columns read or written by the modelled operations are present.

External collaborators (plugin registry results, plugin.create_tasks results,
worker heartbeat payloads, follow-up job descriptors, clock readings) enter
as explicit parameters.
-/

namespace RenderQ

inductive JobStatus
  | pending | queued | active | completed | failed | suspended | cancelled
deriving DecidableEq

inductive TaskStatus
  | pending | assigned | running | completed | failed
deriving DecidableEq

inductive WorkerStatus
  | idle | busy | offline | disabled
deriving DecidableEq

/-- Job row (jobs table / core.models.Job). -/
structure Job where
  id : String
  name : String
  plugin : String
  priority : Int
  pool : String
  status : JobStatus
  progress : Rat
  task_total : Nat
  task_completed : Nat
  task_failed : Nat
  dependent_on : List String
  submitted_at : Int
  started_at : Option Int
  finished_at : Option Int
  error_message : Option String
deriving DecidableEq

/-- Task row (tasks table / core.models.Task); `index` is the `idx` column. -/
structure Task where
  id : String
  job_id : String
  index : Nat
  status : TaskStatus
  progress : Rat
  assigned_worker : Option String
  started_at : Option Int
  finished_at : Option Int
  exit_code : Option Int
  error_message : Option String
deriving DecidableEq

/-- Worker row (workers table / core.models.Worker). -/
structure Worker where
  id : String
  name : String
  status : WorkerStatus
  current_task : Option String
  pools : List String
  capabilities : List String
  cpu_usage : Rat
  memory_used : Int
  last_heartbeat : Option Int
deriving DecidableEq

/-- The SQLite database: three tables, rows in insertion order. -/
structure DB where
  jobs : List Job
  tasks : List Task
  workers : List Worker
deriving DecidableEq

/-- COALESCE(new, old) as used by Database.update_task_status. -/
def coalesce {α : Type} (new old : Option α) : Option α :=
  match new with
  | some v => some v
  | none => old

namespace DB

/-- Database.add_job. -/
def addJob (db : DB) (j : Job) : DB :=
  { db with jobs := db.jobs ++ [j] }

/-- Database.get_job. -/
def getJob (db : DB) (jid : String) : Option Job :=
  db.jobs.find? (fun j => j.id == jid)

/-- Database.update_job: writes every column except id, submitted_by and
submitted_at (the UPDATE statement does not list submitted_at). -/
def updateJob (db : DB) (j : Job) : DB :=
  { db with jobs := db.jobs.map (fun r =>
      if r.id = j.id then { j with submitted_at := r.submitted_at } else r) }

/-- Database.update_job_status: status-dependent column sets. -/
def updateJobStatus (db : DB) (jid : String) (status : JobStatus)
    (err : Option String) (now : Int) : DB :=
  { db with jobs := db.jobs.map (fun r =>
      if r.id = jid then
        if status = .active then
          { r with status := status, started_at := some now }
        else if status = .completed ∨ status = .failed ∨ status = .cancelled then
          { r with status := status, finished_at := some now, error_message := err }
        else
          { r with status := status }
      else r) }

/-- Database.delete_job: deletes the job's tasks, then the job. -/
def deleteJob (db : DB) (jid : String) : DB :=
  { db with tasks := db.tasks.filter (fun t => t.job_id != jid),
            jobs := db.jobs.filter (fun j => j.id != jid) }

/-- Database.add_task. -/
def addTask (db : DB) (t : Task) : DB :=
  { db with tasks := db.tasks ++ [t] }

/-- Database.get_task. -/
def getTask (db : DB) (tid : String) : Option Task :=
  db.tasks.find? (fun t => t.id == tid)

/-- Database.get_tasks_by_job (the claims proved here do not depend on the
ORDER BY idx presentation order). -/
def getTasksByJob (db : DB) (jid : String) : List Task :=
  db.tasks.filter (fun t => t.job_id == jid)

/-- Database.update_task: writes status, progress, assigned_worker,
started_at, finished_at, exit_code, error_message; job_id and idx keep the
stored values. -/
def updateTask (db : DB) (t : Task) : DB :=
  { db with tasks := db.tasks.map (fun r =>
      if r.id = t.id then { t with job_id := r.job_id, index := r.index } else r) }

/-- Database.update_task_status with COALESCE semantics for the optional
columns. -/
def updateTaskStatus (db : DB) (tid : String) (status : TaskStatus)
    (started finished : Option Int) (exit_code : Option Int)
    (err : Option String) : DB :=
  { db with tasks := db.tasks.map (fun r =>
      if r.id = tid then
        { r with status := status,
                 started_at := coalesce started r.started_at,
                 finished_at := coalesce finished r.finished_at,
                 exit_code := coalesce exit_code r.exit_code,
                 error_message := coalesce err r.error_message }
      else r) }

/-- Database.update_task_progress. -/
def updateTaskProgress (db : DB) (tid : String) (p : Rat) : DB :=
  { db with tasks := db.tasks.map (fun r =>
      if r.id = tid then { r with progress := p } else r) }

/-- Database.upsert_worker: INSERT ... ON CONFLICT(id) DO UPDATE overwriting
every column. -/
def upsertWorker (db : DB) (w : Worker) : DB :=
  if db.workers.any (fun r => r.id == w.id) then
    { db with workers := db.workers.map (fun r => if r.id = w.id then w else r) }
  else
    { db with workers := db.workers ++ [w] }

/-- Database.get_worker. -/
def getWorker (db : DB) (wid : String) : Option Worker :=
  db.workers.find? (fun w => w.id == wid)

/-- Database.get_workers (the name ordering of the SELECT is immaterial to the
properties proved here). -/
def getWorkers (db : DB) : List Worker :=
  db.workers

/-- Database.mark_worker_offline. -/
def markWorkerOffline (db : DB) (wid : String) : DB :=
  { db with workers := db.workers.map (fun r =>
      if r.id = wid then { r with status := .offline, current_task := none } else r) }

/-- Database.delete_worker. -/
def deleteWorker (db : DB) (wid : String) : DB :=
  { db with workers := db.workers.filter (fun w => w.id != wid) }

end DB

/-- The heartbeat payload dict: keys read by Database.update_worker_heartbeat,
each optional because `heartbeat.get(...)` supplies defaults. -/
structure HeartbeatData where
  status : Option WorkerStatus
  current_task : Option String
  cpu_usage : Option Rat
  memory_used : Option Int
deriving DecidableEq

/-- Database.update_worker_heartbeat: overwrites status (default idle),
current_task, cpu_usage, memory_used with the reported values and sets
last_heartbeat to now. -/
def DB.updateWorkerHeartbeat (db : DB) (wid : String) (hb : HeartbeatData)
    (now : Int) : DB :=
  { db with workers := db.workers.map (fun r =>
      if r.id = wid then
        { r with status := hb.status.getD .idle,
                 current_task := hb.current_task,
                 cpu_usage := hb.cpu_usage.getD 0,
                 memory_used := hb.memory_used.getD 0,
                 last_heartbeat := some now }
      else r) }

/-! ## Dispatch (Database.get_next_task_for_worker and /request-task) -/

/-- The ORDER BY j.priority DESC, j.submitted_at ASC, t.idx ASC comparison:
`pullBefore a b` holds when candidate `a` sorts strictly before `b`. -/
def pullBefore (a b : Task × Job) : Bool :=
  decide (b.2.priority < a.2.priority ∨
    (a.2.priority = b.2.priority ∧
      (a.2.submitted_at < b.2.submitted_at ∨
        (a.2.submitted_at = b.2.submitted_at ∧ a.1.index < b.1.index))))

/-- One accumulation step of the LIMIT 1 selection. -/
def chooseStep {α : Type} (f : α → α → Bool) (acc : Option α) (c : α) : Option α :=
  match acc with
  | none => some c
  | some b => if f c b then some c else some b

/-- LIMIT 1 after ORDER BY: the minimal element under `f`, keeping the
earlier row on ties. -/
def chooseBest {α : Type} (f : α → α → Bool) (l : List α) : Option α :=
  l.foldl (chooseStep f) none

/-- One task's contribution to the WHERE clause of get_next_task_for_worker:
t.status = 'pending' AND j.status IN ('queued','active') AND j.pool IN
(worker.pools), joined on t.job_id = j.id.  The clause reads neither
j.dependent_on nor worker.capabilities. -/
def candidateFor (db : DB) (w : Worker) (t : Task) : Option (Task × Job) :=
  match db.jobs.find? (fun j => j.id == t.job_id) with
  | none => none
  | some j =>
    if t.status = .pending ∧ (j.status = .queued ∨ j.status = .active) ∧
        j.pool ∈ w.pools then
      some (t, j)
    else none

/-- The rows satisfying the WHERE clause of get_next_task_for_worker. -/
def pullCandidates (db : DB) (w : Worker) : List (Task × Job) :=
  db.tasks.filterMap (candidateFor db w)

/-- Database.get_next_task_for_worker. -/
def getNextTaskForWorker (db : DB) (w : Worker) : Option Task :=
  (chooseBest pullBefore (pullCandidates db w)).map (fun c => c.1)

/-- An HTTP endpoint outcome: a value or an HTTPException status code. -/
inductive HttpResult (α : Type)
  | ok (val : α)
  | error (code : Nat)
deriving DecidableEq

/-- The assignment block of server.main.request_task once a candidate task
was found: persist the task as assigned, mark the worker busy on it, and
promote the job from queued to active. -/
def assignTask (db : DB) (w : Worker) (wid : String) (t0 : Task) (now : Int) :
    HttpResult (Option (Task × Option Job)) × DB :=
  let t := { t0 with status := .assigned, assigned_worker := some wid }
  let db1 := db.updateTask t
  let w1 := { w with status := .busy, current_task := some t.id }
  let db2 := db1.upsertWorker w1
  match db2.getJob t.job_id with
  | none => (.ok (some (t, none)), db2)
  | some job =>
    if job.status = .queued then
      let job1 := { job with status := .active, started_at := some now }
      (.ok (some (t, some job1)), db2.updateJob job1)
    else
      (.ok (some (t, some job)), db2)

/-- POST /api/workers/\x7bworker_id\x7d/request-task (server.main.request_task). -/
def requestTask (db : DB) (wid : String) (now : Int) :
    HttpResult (Option (Task × Option Job)) × DB :=
  match db.getWorker wid with
  | none => (.error 404, db)
  | some w =>
    if w.status ≠ .idle then (.ok none, db)
    else
      match getNextTaskForWorker db w with
      | none => (.ok none, db)
      | some t0 => assignTask db w wid t0 now

/-! ## Worker protocol endpoints -/

/-- POST /api/workers/\x7bworker_id\x7d/heartbeat. -/
def workerHeartbeat (db : DB) (wid : String) (hb : HeartbeatData) (now : Int) :
    HttpResult Unit × DB :=
  match db.getWorker wid with
  | none => (.error 404, db)
  | some _ => (.ok (), db.updateWorkerHeartbeat wid hb now)

/-- The registration payload fields the modelled Worker carries. -/
structure RegistrationData where
  id : String
  name : String
  pools : List String
  capabilities : List String
deriving DecidableEq

/-- POST /api/workers/register: upsert with status idle, no current task,
fresh heartbeat. -/
def registerWorker (db : DB) (d : RegistrationData) (now : Int) : DB :=
  db.upsertWorker
    { id := d.id, name := d.name, status := .idle, current_task := none,
      pools := d.pools, capabilities := d.capabilities,
      cpu_usage := 0, memory_used := 0, last_heartbeat := some now }

/-- Releasing the worker named by a task's assigned_worker (shared by the
complete / fail / cancel / suspend task handlers). -/
def releaseWorker (db : DB) (task : Task) : DB :=
  match task.assigned_worker with
  | none => db
  | some wid =>
    match db.getWorker wid with
    | none => db
    | some w => db.upsertWorker { w with status := .idle, current_task := none }

/-- POST /api/tasks/\x7btask_id\x7d/start. -/
def taskStarted (db : DB) (tid : String) (now : Int) : DB :=
  db.updateTaskStatus tid .running (some now) none none none

/-- POST /api/tasks/\x7btask_id\x7d/progress. -/
def taskProgressReport (db : DB) (tid : String) (p : Rat) : DB :=
  db.updateTaskProgress tid p

/-- POST /api/tasks/\x7btask_id\x7d/complete (server.main.task_completed). -/
def taskCompleted (db : DB) (tid : String) (exit_code : Int) (now : Int) :
    HttpResult Unit × DB :=
  match db.getTask tid with
  | none => (.error 404, db)
  | some task =>
    let db1 := db.updateTaskStatus tid .completed none (some now) (some exit_code) none
    let db2 := releaseWorker db1 task
    match db2.getJob task.job_id with
    | none => (.ok (), db2)
    | some job =>
      let all_tasks := db2.getTasksByJob task.job_id
      let completed := (all_tasks.filter (fun t => t.status == .completed)).length
      let failed := (all_tasks.filter (fun t => t.status == .failed)).length
      let progress : Rat :=
        if job.task_total > 0 then (completed : Rat) / (job.task_total : Rat) * 100 else 0
      let job1 := { job with task_completed := completed, task_failed := failed,
                             progress := progress }
      let job2 :=
        if completed + failed ≥ job.task_total then
          if failed > 0 then { job1 with status := .failed, finished_at := some now }
          else { job1 with status := .completed, finished_at := some now }
        else job1
      (.ok (), db2.updateJob job2)

/-- POST /api/tasks/\x7btask_id\x7d/fail (server.main.task_failed). -/
def taskFailedReport (db : DB) (tid : String) (exit_code : Int)
    (err : Option String) (now : Int) : HttpResult Unit × DB :=
  match db.getTask tid with
  | none => (.error 404, db)
  | some task =>
    let db1 := db.updateTaskStatus tid .failed none (some now) (some exit_code) err
    let db2 := releaseWorker db1 task
    match db2.getJob task.job_id with
    | none => (.ok (), db2)
    | some job =>
      let all_tasks := db2.getTasksByJob task.job_id
      let completed := (all_tasks.filter (fun t => t.status == .completed)).length
      let failed := (all_tasks.filter (fun t => t.status == .failed)).length
      let progress : Rat :=
        if job.task_total > 0 then (completed : Rat) / (job.task_total : Rat) * 100 else 0
      let job1 := { job with task_completed := completed, task_failed := failed,
                             progress := progress }
      let job2 :=
        if completed + failed ≥ job.task_total then
          { job1 with status := .failed, finished_at := some now, error_message := err }
        else job1
      (.ok (), db2.updateJob job2)

/-- POST /api/tasks/\x7btask_id\x7d/retry (server.main.retry_task): resets the
row via update_task_status, then writes back the in-memory task object whose
status field was never changed (so the row's status ends up failed again). -/
def retryTaskEndpoint (db : DB) (tid : String) : HttpResult Unit × DB :=
  match db.getTask tid with
  | none => (.error 404, db)
  | some task =>
    if task.status ≠ .failed then (.error 400, db)
    else
      let db1 := db.updateTaskStatus tid .pending none none none none
      let task1 := { task with assigned_worker := none, started_at := none,
                               finished_at := none, progress := 0,
                               exit_code := none, error_message := none }
      (.ok (), db1.updateTask task1)

/-- POST /api/tasks/\x7btask_id\x7d/cancel. -/
def cancelTaskEndpoint (db : DB) (tid : String) : HttpResult Unit × DB :=
  match db.getTask tid with
  | none => (.error 404, db)
  | some task =>
    if task.status = .pending ∨ task.status = .assigned ∨ task.status = .running then
      let db1 := releaseWorker db task
      (.ok (), db1.updateTaskStatus tid .failed none none none (some "Cancelled by user"))
    else (.error 400, db)

/-- POST /api/tasks/\x7btask_id\x7d/suspend. -/
def suspendTaskEndpoint (db : DB) (tid : String) : HttpResult Unit × DB :=
  match db.getTask tid with
  | none => (.error 404, db)
  | some task =>
    if task.status = .running then
      let db1 := releaseWorker db task
      (.ok (), db1.updateTaskStatus tid .failed none none none (some "Suspended by user"))
    else (.error 400, db)

/-! ## Submission (server.main.submit_job) -/

/-- POST /api/jobs.  `pluginExists` is whether registry.get found the plugin,
`validateOk` is plugin.validate's verdict, `partition` is the outcome of
plugin.create_tasks (error = it raised), and `persistFail = some k` means
db.add_task raised while persisting task number k (0-based); any failure
inside the try block triggers delete_job and a 500. -/
def submitJob (db : DB) (pluginExists validateOk : Bool) (job : Job)
    (partition : Except Unit (List Task)) (persistFail : Option Nat) :
    HttpResult Job × DB :=
  if ¬pluginExists then (.error 400, db)
  else if ¬validateOk then (.error 400, db)
  else
    let db1 := db.addJob job
    match partition with
    | .error _ => (.error 500, db1.deleteJob job.id)
    | .ok tasks =>
      match persistFail with
      | some k =>
        if k < tasks.length then
          let db2 := (tasks.take k).foldl DB.addTask db1
          (.error 500, db2.deleteJob job.id)
        else
          let db2 := tasks.foldl DB.addTask db1
          let job1 := { job with task_total := tasks.length, status := .queued }
          (.ok job1, db2.updateJob job1)
      | none =>
        let db2 := tasks.foldl DB.addTask db1
        let job1 := { job with task_total := tasks.length, status := .queued }
        (.ok job1, db2.updateJob job1)

/-! ## Scheduler (core.scheduler.Scheduler) -/

/-- Scheduler.worker_timeout default. -/
def workerTimeout : Int := 60

/-- Scheduler.max_task_retries. -/
def maxTaskRetries : Nat := 3

/-- The current-task handling of a timed-out worker inside
Scheduler._check_worker_timeouts: a held task in status running is reset to
pending with its assignment cleared. -/
def sweepTaskReset (db : DB) (w : Worker) : DB :=
  match w.current_task with
  | none => db
  | some tid =>
    match db.getTask tid with
    | none => db
    | some t =>
      if t.status = TaskStatus.running then
        db.updateTask { t with status := .pending, assigned_worker := none }
      else db

/-- One worker's treatment inside Scheduler._check_worker_timeouts: skip
offline workers and workers without a heartbeat; on now - last_heartbeat >
timeout, re-queue a running current task and mark the worker offline. -/
def sweepWorker (now : Int) (db : DB) (w : Worker) : DB :=
  if w.status = .offline then db
  else
    match w.last_heartbeat with
    | none => db
    | some hb =>
      if now - hb > workerTimeout then
        (sweepTaskReset db w).markWorkerOffline w.id
      else db

/-- Scheduler._check_worker_timeouts: iterate over a snapshot of the worker
table. -/
def checkWorkerTimeouts (db : DB) (now : Int) : DB :=
  db.getWorkers.foldl (sweepWorker now) db

/-- A descriptor returned by plugin.get_encoding_jobs, plus the uuid drawn
for the new job; optional fields use Job-construction defaults. -/
structure FollowUpData where
  id : String
  name : Option String
  plugin : Option String
  priority : Option Int
  pool : Option String
  dependent_on : Option (List String)
deriving DecidableEq

/-- The Job object Scheduler._create_follow_up_jobs builds from one
descriptor: unset Job fields take the pydantic model defaults (status
pending, zero counts and progress). -/
def mkFollowUpJob (parent : Job) (d : FollowUpData) (now : Int) : Job :=
  { id := d.id,
    name := d.name.getD (parent.name ++ " - Encode"),
    plugin := d.plugin.getD "ffmpeg",
    priority := d.priority.getD parent.priority,
    pool := d.pool.getD parent.pool,
    status := .pending,
    progress := 0,
    task_total := 0, task_completed := 0, task_failed := 0,
    dependent_on := d.dependent_on.getD [],
    submitted_at := now,
    started_at := none, finished_at := none, error_message := none }

/-- Scheduler._create_follow_up_jobs: add_job for each descriptor. -/
def createFollowUpJobs (db : DB) (parent : Job) (ds : List FollowUpData)
    (now : Int) : DB :=
  ds.foldl (fun d fd => d.addJob (mkFollowUpJob parent fd now)) db

/-- The body of Scheduler._update_job_progress for one active job: recompute
counts and progress; when all tasks are terminal, complete the job (and
create follow-ups) if nothing failed, mark it failed only when failed ≥ total
or failed > max_task_retries, and otherwise just persist the counts. -/
def aggregateJob (db : DB) (job : Job) (now : Int) (fus : List FollowUpData) : DB :=
  let tasks := db.getTasksByJob job.id
  if tasks.isEmpty then db
  else
    let completed := (tasks.filter (fun t => t.status == .completed)).length
    let failed := (tasks.filter (fun t => t.status == .failed)).length
    let total := tasks.length
    let psum := tasks.foldl (fun acc t =>
      if t.status = .completed then acc + 100
      else if t.status = .running then acc + t.progress
      else acc) (0 : Rat)
    let progress := psum / (total : Rat)
    let job1 := { job with progress := progress, task_completed := completed,
                           task_failed := failed }
    if completed + failed ≥ total then
      if failed = 0 then
        let job2 := { job1 with status := .completed, finished_at := some now }
        (createFollowUpJobs db job2 fus now).updateJob job2
      else if failed ≥ total ∨ failed > maxTaskRetries then
        let job2 := { job1 with status := .failed, finished_at := some now,
                                error_message := some (toString failed ++ " tasks failed") }
        db.updateJob job2
      else db.updateJob job1
    else db.updateJob job1

/-- One job's turn in the scheduler loop: _update_job_progress only processes
jobs the active-status query returned. -/
def aggregateStep (db : DB) (jid : String) (now : Int)
    (fus : List FollowUpData) : DB :=
  match db.getJob jid with
  | none => db
  | some job => if job.status = .active then aggregateJob db job now fus else db

/-- Scheduler.suspend_job. -/
def suspendJobSched (db : DB) (jid : String) (now : Int) : Bool × DB :=
  match db.getJob jid with
  | none => (false, db)
  | some job =>
    if job.status = .pending ∨ job.status = .queued ∨ job.status = .active then
      (true, db.updateJobStatus jid .suspended none now)
    else (false, db)

/-- Scheduler.resume_job. -/
def resumeJobSched (db : DB) (jid : String) (now : Int) : Bool × DB :=
  match db.getJob jid with
  | none => (false, db)
  | some job =>
    if job.status = .suspended then
      if (db.getTasksByJob jid).any (fun t => t.status == .pending) then
        (true, db.updateJobStatus jid .queued none now)
      else
        (true, db.updateJobStatus jid .active none now)
    else (false, db)

/-- Scheduler.cancel_job: no state check beyond existence. -/
def cancelJobSched (db : DB) (jid : String) (now : Int) : Bool × DB :=
  match db.getJob jid with
  | none => (false, db)
  | some _ => (true, db.updateJobStatus jid .cancelled none now)

/-- POST /api/jobs/\x7bjob_id\x7d/cancel: 400 when the scheduler returns False. -/
def cancelJobEndpoint (db : DB) (jid : String) (now : Int) : HttpResult Unit × DB :=
  let r := cancelJobSched db jid now
  if r.1 then (.ok (), r.2) else (.error 400, r.2)

/-- The reset Scheduler.retry_job applies to a failed task before writing it
back: status pending, assignment and failure fields cleared. -/
def retryTaskReset (t : Task) : Task :=
  { t with status := .pending, assigned_worker := none,
           error_message := none, exit_code := none }

/-- One iteration of Scheduler.retry_job's loop over the job's tasks. -/
def retryDbStep (d : DB) (t : Task) : DB :=
  if t.status = .failed then d.updateTask (retryTaskReset t) else d

/-- The effect of one retry_job loop iteration on a single stored row. -/
def retryRowStep (x t : Task) : Task :=
  if t.status = .failed then
    (if x.id = t.id then { retryTaskReset t with job_id := x.job_id, index := x.index }
     else x)
  else x

/-- Scheduler.retry_job. -/
def retryJobSched (db : DB) (jid : String) : Bool × DB :=
  match db.getJob jid with
  | none => (false, db)
  | some job =>
    if job.status ≠ .failed then (false, db)
    else
      let tasks := db.getTasksByJob jid
      let db1 := tasks.foldl retryDbStep db
      let job1 := { job with status := .queued, task_failed := 0,
                             error_message := none, finished_at := none }
      (true, db1.updateJob job1)

/-- DELETE /api/jobs/\x7bjob_id\x7d: only terminal jobs may be deleted. -/
def deleteJobEndpoint (db : DB) (jid : String) : HttpResult Unit × DB :=
  match db.getJob jid with
  | none => (.error 404, db)
  | some job =>
    if job.status = .completed ∨ job.status = .cancelled ∨ job.status = .failed then
      (.ok (), db.deleteJob jid)
    else (.error 400, db)

/-- PUT /api/jobs/\x7bjob_id\x7d/priority. -/
def updateJobPriorityEndpoint (db : DB) (jid : String) (p : Int) :
    HttpResult Unit × DB :=
  match db.getJob jid with
  | none => (.error 404, db)
  | some job =>
    if 0 ≤ p ∧ p ≤ 100 then (.ok (), db.updateJob { job with priority := p })
    else (.error 400, db)

/-- POST /api/workers/\x7bworker_id\x7d/disable. -/
def disableWorkerEndpoint (db : DB) (wid : String) : HttpResult Unit × DB :=
  match db.getWorker wid with
  | none => (.error 404, db)
  | some w => (.ok (), db.upsertWorker { w with status := .disabled })

/-- POST /api/workers/\x7bworker_id\x7d/enable. -/
def enableWorkerEndpoint (db : DB) (wid : String) : HttpResult Unit × DB :=
  match db.getWorker wid with
  | none => (.error 404, db)
  | some w => (.ok (), db.upsertWorker { w with status := .idle })

/-- DELETE /api/workers/\x7bworker_id\x7d. -/
def deleteWorkerEndpoint (db : DB) (wid : String) : HttpResult Unit × DB :=
  match db.getWorker wid with
  | none => (.error 404, db)
  | some w =>
    if w.status = .offline ∨ w.status = .disabled then (.ok (), db.deleteWorker wid)
    else (.error 400, db)

/-! ## The coordinator's operations as a transition system -/

/-- Every store-mutating coordinator operation (endpoints plus the scheduler
loop's per-worker and per-job steps). -/
inductive Op
  | submit (pluginExists validateOk : Bool) (job : Job)
      (partition : Except Unit (List Task)) (persistFail : Option Nat)
  | requestTask (wid : String) (now : Int)
  | heartbeat (wid : String) (hb : HeartbeatData) (now : Int)
  | register (d : RegistrationData) (now : Int)
  | sweep (now : Int)
  | aggregate (jid : String) (now : Int) (fus : List FollowUpData)
  | taskStart (tid : String) (now : Int)
  | taskProgress (tid : String) (p : Rat)
  | complete (tid : String) (exit_code : Int) (now : Int)
  | fail (tid : String) (exit_code : Int) (err : Option String) (now : Int)
  | retryTask (tid : String)
  | cancelTask (tid : String)
  | suspendTask (tid : String)
  | suspendJob (jid : String) (now : Int)
  | resumeJob (jid : String) (now : Int)
  | cancelJob (jid : String) (now : Int)
  | retryJob (jid : String)
  | deleteJob (jid : String)
  | setPriority (jid : String) (p : Int)
  | disableWorker (wid : String)
  | enableWorker (wid : String)
  | deleteWorker (wid : String)

/-- The store state reached by one coordinator operation. -/
def step (db : DB) (op : Op) : DB :=
  match op with
  | .submit pe vo job part pf => (submitJob db pe vo job part pf).2
  | .requestTask wid now => (requestTask db wid now).2
  | .heartbeat wid hb now => (workerHeartbeat db wid hb now).2
  | .register d now => registerWorker db d now
  | .sweep now => checkWorkerTimeouts db now
  | .aggregate jid now fus => aggregateStep db jid now fus
  | .taskStart tid now => taskStarted db tid now
  | .taskProgress tid p => taskProgressReport db tid p
  | .complete tid ec now => (taskCompleted db tid ec now).2
  | .fail tid ec err now => (taskFailedReport db tid ec err now).2
  | .retryTask tid => (retryTaskEndpoint db tid).2
  | .cancelTask tid => (cancelTaskEndpoint db tid).2
  | .suspendTask tid => (suspendTaskEndpoint db tid).2
  | .suspendJob jid now => (suspendJobSched db jid now).2
  | .resumeJob jid now => (resumeJobSched db jid now).2
  | .cancelJob jid now => (cancelJobSched db jid now).2
  | .retryJob jid => (retryJobSched db jid).2
  | .deleteJob jid => (deleteJobEndpoint db jid).2
  | .setPriority jid p => (updateJobPriorityEndpoint db jid p).2
  | .disableWorker wid => (disableWorkerEndpoint db wid).2
  | .enableWorker wid => (enableWorkerEndpoint db wid).2
  | .deleteWorker wid => (deleteWorkerEndpoint db wid).2

/-- A sequence of coordinator operations. -/
def run (db : DB) (ops : List Op) : DB :=
  ops.foldl step db

/-! ## Derived predicates used by the claims -/

/-- The count of a job's tasks in status completed (as computed by the
aggregation code). -/
def completedCount (db : DB) (jid : String) : Nat :=
  ((db.getTasksByJob jid).filter (fun t => t.status == .completed)).length

/-- The count of a job's tasks in status failed. -/
def failedCount (db : DB) (jid : String) : Nat :=
  ((db.getTasksByJob jid).filter (fun t => t.status == .failed)).length

/-- The number of task rows of a job. -/
def totalCount (db : DB) (jid : String) : Nat :=
  (db.getTasksByJob jid).length

/-- The progress numerator of Scheduler._update_job_progress: 100 per
completed task plus partial progress of running tasks. -/
def progressSumOf (db : DB) (jid : String) : Rat :=
  (db.getTasksByJob jid).foldl (fun acc t =>
    if t.status = .completed then acc + 100
    else if t.status = .running then acc + t.progress
    else acc) (0 : Rat)

/-- The aggregate progress Scheduler._update_job_progress stores. -/
def progressOf (db : DB) (jid : String) : Rat :=
  progressSumOf db jid / (totalCount db jid : Rat)

/-- The mutual task/worker linkage invariant of spec section 8: every
assigned/running task points at a busy worker holding it, and every busy
worker points back at its task. -/
def taskWorkerLinked (db : DB) : Bool :=
  (db.tasks.all (fun t =>
    if t.status = .assigned ∨ t.status = .running then
      match t.assigned_worker with
      | none => false
      | some wid =>
        match db.getWorker wid with
        | none => false
        | some w => decide (w.status = .busy ∧ w.current_task = some t.id)
    else true))
  && (db.workers.all (fun w =>
    if w.status = .busy then
      match w.current_task with
      | none => false
      | some tid =>
        match db.getTask tid with
        | none => false
        | some t => decide (t.assigned_worker = some w.id)
    else true))

/-- No task row belongs to the given job. -/
def noTasksOf (jid : String) (db : DB) : Prop :=
  ∀ t ∈ db.tasks, t.job_id ≠ jid

/-- Side condition on an operation: a submission never reuses the given job
id, and the tasks its plugin partitions carry the submitted job's id (as
plugin.create_tasks does in the source plugins). -/
def opSafeFor (jid : String) : Op → Prop
  | .submit _ _ job part _ =>
      job.id ≠ jid ∧ ∀ ts, part = .ok ts → ∀ t ∈ ts, t.job_id = job.id
  | _ => True

/-! ## Concrete states used by counterexamples and witnesses -/

def jobC1 : Job :=
  { id := "jobB", name := "B", plugin := "aftereffects", priority := 50,
    pool := "default", status := .queued, progress := 0, task_total := 1,
    task_completed := 0, task_failed := 0, dependent_on := ["ghost"],
    submitted_at := 0, started_at := none, finished_at := none,
    error_message := none }

def taskC1 : Task :=
  { id := "taskB", job_id := "jobB", index := 0, status := .pending,
    progress := 0, assigned_worker := none, started_at := none,
    finished_at := none, exit_code := none, error_message := none }

def workerC1 : Worker :=
  { id := "w1", name := "W1", status := .idle, current_task := none,
    pools := ["default"], capabilities := [], cpu_usage := 0,
    memory_used := 0, last_heartbeat := some 0 }

def dbC1 : DB := { jobs := [jobC1], tasks := [taskC1], workers := [workerC1] }

def jobC2 : Job :=
  { jobC1 with id := "jobAE", dependent_on := [] }

def taskC2 : Task :=
  { taskC1 with id := "taskAE", job_id := "jobAE" }

def workerC2 : Worker :=
  { workerC1 with id := "w2", name := "W2", capabilities := ["ffmpeg"] }

def dbC2 : DB := { jobs := [jobC2], tasks := [taskC2], workers := [workerC2] }

def jobC3 : Job :=
  { id := "J3", name := "J3", plugin := "aftereffects", priority := 50,
    pool := "default", status := .active, progress := 0, task_total := 2,
    task_completed := 0, task_failed := 0, dependent_on := [],
    submitted_at := 0, started_at := some 1, finished_at := none,
    error_message := none }

def taskC3a : Task :=
  { id := "t3a", job_id := "J3", index := 0, status := .completed,
    progress := 100, assigned_worker := none, started_at := some 1,
    finished_at := some 2, exit_code := some 0, error_message := none }

def taskC3b : Task :=
  { taskC3a with
    id := "t3b", index := 1, status := .failed,
    progress := 0, exit_code := some 1, error_message := some "boom" }

def dbC3 : DB := { jobs := [jobC3], tasks := [taskC3a, taskC3b], workers := [] }

def jobC3w : Job := { jobC3 with id := "JW3", task_total := 1 }

def taskC3w : Task :=
  { taskC3b with id := "t3w", job_id := "JW3", index := 0 }

def dbC3w : DB := { jobs := [jobC3w], tasks := [taskC3w], workers := [] }

def taskC4 : Task :=
  { id := "t4", job_id := "J4", index := 0, status := .assigned,
    progress := 0, assigned_worker := some "w4", started_at := none,
    finished_at := none, exit_code := none, error_message := none }

def workerC4 : Worker :=
  { id := "w4", name := "W4", status := .busy, current_task := some "t4",
    pools := ["default"], capabilities := [], cpu_usage := 0,
    memory_used := 0, last_heartbeat := some 0 }

def dbC4 : DB := { jobs := [], tasks := [taskC4], workers := [workerC4] }

def jobC4w : Job := { jobC1 with id := "J4w", dependent_on := [] }

def taskC4w : Task := { taskC1 with id := "t4w", job_id := "J4w" }

def workerC4w : Worker := { workerC1 with id := "w4w", name := "W4w" }

def dbC4w : DB :=
  { jobs := [jobC4w], tasks := [taskC4w], workers := [workerC4w] }

def workerC5 : Worker :=
  { id := "w5", name := "W5", status := .busy, current_task := some "t5",
    pools := ["default"], capabilities := [], cpu_usage := 10,
    memory_used := 7, last_heartbeat := some 0 }

def dbC5 : DB := { jobs := [], tasks := [], workers := [workerC5] }

def hbC5 : HeartbeatData :=
  { status := some .idle, current_task := none, cpu_usage := some 3,
    memory_used := some 4 }

def jobC6 : Job := { jobC1 with id := "J6", dependent_on := [] }

def taskC6 : Task := { taskC1 with id := "t6", job_id := "J6" }

def dbC6 : DB := { jobs := [], tasks := [], workers := [] }

def taskC7 : Task :=
  { id := "t7", job_id := "J7", index := 0, status := .running,
    progress := 40, assigned_worker := some "w7", started_at := some 1,
    finished_at := none, exit_code := none, error_message := none }

def workerC7 : Worker :=
  { id := "w7", name := "W7", status := .busy, current_task := some "t7",
    pools := ["default"], capabilities := [], cpu_usage := 0,
    memory_used := 0, last_heartbeat := some 0 }

def dbC7 : DB := { jobs := [], tasks := [taskC7], workers := [workerC7] }

def jobC8 : Job :=
  { id := "J8", name := "J8", plugin := "aftereffects", priority := 50,
    pool := "default", status := .failed, progress := 77, task_total := 1,
    task_completed := 0, task_failed := 1, dependent_on := [],
    submitted_at := 0, started_at := some 1, finished_at := some 2,
    error_message := some "1 tasks failed" }

def taskC8 : Task :=
  { id := "t8", job_id := "J8", index := 0, status := .failed,
    progress := 0, assigned_worker := some "w8", started_at := some 1,
    finished_at := some 2, exit_code := some 1, error_message := some "boom" }

def dbC8 : DB := { jobs := [jobC8], tasks := [taskC8], workers := [] }

def jobC8w : Job := { jobC8 with id := "J8w" }

def taskC8w : Task := { taskC8 with id := "t8w", job_id := "J8w" }

def taskC8w2 : Task :=
  { taskC8 with
    id := "t8w2", job_id := "J8w", index := 1,
    status := .completed, exit_code := some 0, error_message := none }

def dbC8w : DB := { jobs := [jobC8w], tasks := [taskC8w, taskC8w2], workers := [] }

def jobC9 : Job :=
  { jobC1 with
    id := "J9", dependent_on := [], status := .completed,
    finished_at := some 3 }

def dbC9 : DB := { jobs := [jobC9], tasks := [], workers := [] }

def jobC9w : Job := { jobC9 with id := "J9w" }

def dbC9w : DB := { jobs := [jobC9w], tasks := [], workers := [] }

def jobC10parent : Job :=
  { id := "J10", name := "Render", plugin := "aftereffects", priority := 60,
    pool := "default", status := .completed, progress := 100, task_total := 1,
    task_completed := 1, task_failed := 0, dependent_on := [],
    submitted_at := 0, started_at := some 1, finished_at := some 2,
    error_message := none }

def fdC10 : FollowUpData :=
  { id := "fj", name := some "Render - Encode", plugin := some "ffmpeg",
    priority := none, pool := none, dependent_on := some ["J10"] }

def dbC10base : DB := { jobs := [jobC10parent], tasks := [], workers := [] }

/-- The store right after the scheduler created the follow-up job. -/
def dbC10 : DB := createFollowUpJobs dbC10base jobC10parent [fdC10] 2

/-! ## Helper lemmas: store projections -/

theorem tasks_addJob (db : DB) (j : Job) : (db.addJob j).tasks = db.tasks := rfl

theorem workers_addJob (db : DB) (j : Job) : (db.addJob j).workers = db.workers := rfl

theorem tasks_updateJob (db : DB) (j : Job) : (db.updateJob j).tasks = db.tasks := rfl

theorem workers_updateJob (db : DB) (j : Job) : (db.updateJob j).workers = db.workers := rfl

theorem tasks_updateJobStatus (db : DB) (jid : String) (s : JobStatus)
    (e : Option String) (now : Int) :
    (db.updateJobStatus jid s e now).tasks = db.tasks := rfl

theorem workers_updateJobStatus (db : DB) (jid : String) (s : JobStatus)
    (e : Option String) (now : Int) :
    (db.updateJobStatus jid s e now).workers = db.workers := rfl

theorem workers_deleteJob (db : DB) (jid : String) :
    (db.deleteJob jid).workers = db.workers := rfl

theorem jobs_addTask (db : DB) (t : Task) : (db.addTask t).jobs = db.jobs := rfl

theorem workers_addTask (db : DB) (t : Task) : (db.addTask t).workers = db.workers := rfl

theorem jobs_updateTask (db : DB) (t : Task) : (db.updateTask t).jobs = db.jobs := rfl

theorem workers_updateTask (db : DB) (t : Task) : (db.updateTask t).workers = db.workers := rfl

theorem jobs_updateTaskStatus (db : DB) (tid : String) (s : TaskStatus)
    (a b : Option Int) (c : Option Int) (e : Option String) :
    (db.updateTaskStatus tid s a b c e).jobs = db.jobs := rfl

theorem workers_updateTaskStatus (db : DB) (tid : String) (s : TaskStatus)
    (a b : Option Int) (c : Option Int) (e : Option String) :
    (db.updateTaskStatus tid s a b c e).workers = db.workers := rfl

theorem jobs_updateTaskProgress (db : DB) (tid : String) (p : Rat) :
    (db.updateTaskProgress tid p).jobs = db.jobs := rfl

theorem workers_updateTaskProgress (db : DB) (tid : String) (p : Rat) :
    (db.updateTaskProgress tid p).workers = db.workers := rfl

theorem jobs_upsertWorker (db : DB) (w : Worker) :
    (db.upsertWorker w).jobs = db.jobs := by
  unfold DB.upsertWorker; split <;> rfl

theorem tasks_upsertWorker (db : DB) (w : Worker) :
    (db.upsertWorker w).tasks = db.tasks := by
  unfold DB.upsertWorker; split <;> rfl

theorem jobs_markWorkerOffline (db : DB) (wid : String) :
    (db.markWorkerOffline wid).jobs = db.jobs := rfl

theorem tasks_markWorkerOffline (db : DB) (wid : String) :
    (db.markWorkerOffline wid).tasks = db.tasks := rfl

theorem jobs_deleteWorker (db : DB) (wid : String) :
    (db.deleteWorker wid).jobs = db.jobs := rfl

theorem tasks_deleteWorker (db : DB) (wid : String) :
    (db.deleteWorker wid).tasks = db.tasks := rfl

theorem jobs_updateWorkerHeartbeat (db : DB) (wid : String) (hb : HeartbeatData)
    (now : Int) : (db.updateWorkerHeartbeat wid hb now).jobs = db.jobs := rfl

theorem tasks_updateWorkerHeartbeat (db : DB) (wid : String) (hb : HeartbeatData)
    (now : Int) : (db.updateWorkerHeartbeat wid hb now).tasks = db.tasks := rfl

theorem jobs_releaseWorker (db : DB) (t : Task) :
    (releaseWorker db t).jobs = db.jobs := by
  unfold releaseWorker
  cases t.assigned_worker with
  | none => rfl
  | some wid =>
    cases hw : db.getWorker wid with
    | none => simp [hw]
    | some w => simp [hw, jobs_upsertWorker]

theorem tasks_releaseWorker (db : DB) (t : Task) :
    (releaseWorker db t).tasks = db.tasks := by
  unfold releaseWorker
  cases t.assigned_worker with
  | none => rfl
  | some wid =>
    cases hw : db.getWorker wid with
    | none => simp [hw]
    | some w => simp [hw, tasks_upsertWorker]

/-! ## Helper lemmas: find? on keyed rows -/

theorem find?_map_pred {α : Type} (l : List α) (g : α → α) (p : α → Bool)
    (hp : ∀ x, p (g x) = p x) : (l.map g).find? p = (l.find? p).map g := by
  rw [List.find?_map]
  have hfun : (p ∘ g) = p := funext hp
  rw [hfun]

theorem find?_key_eq_some {α : Type} (key : α → String)
    (l : List α) (a : α) (ha : a ∈ l) (hnd : (l.map key).Nodup) :
    l.find? (fun x => key x == key a) = some a := by
  induction l with
  | nil => cases ha
  | cons b l ih =>
    rcases List.mem_cons.mp ha with rfl | ha2
    · exact List.find?_cons_of_pos _ (by simp)
    · by_cases hb : key b = key a
      · exfalso
        have hmem : key a ∈ l.map key := List.mem_map_of_mem key ha2
        rw [← hb] at hmem
        exact (List.nodup_cons.mp hnd).1 hmem
      · rw [List.find?_cons_of_neg _ (by simp [hb])]
        exact ih ha2 (List.nodup_cons.mp hnd).2

/-! ## Helper lemmas: the LIMIT 1 selection -/

theorem foldl_chooseStep_mem {α : Type} (f : α → α → Bool) :
    ∀ (l : List α) (acc : Option α) (c : α),
      l.foldl (chooseStep f) acc = some c → c ∈ l ∨ acc = some c := by
  intro l
  induction l with
  | nil => intro acc c h; exact Or.inr h
  | cons a l ih =>
    intro acc c h
    simp only [List.foldl_cons] at h
    rcases ih _ c h with hc | hc
    · exact Or.inl (List.mem_cons_of_mem _ hc)
    · cases acc with
      | none =>
        simp only [chooseStep] at hc
        exact Or.inl (by cases hc; exact List.mem_cons_self a l)
      | some b =>
        simp only [chooseStep] at hc
        by_cases hf : f a b
        · rw [if_pos hf] at hc
          exact Or.inl (by cases hc; exact List.mem_cons_self a l)
        · rw [if_neg hf] at hc
          exact Or.inr hc

theorem chooseBest_mem {α : Type} (f : α → α → Bool) (l : List α) (c : α)
    (h : chooseBest f l = some c) : c ∈ l := by
  rcases foldl_chooseStep_mem f l none c h with hm | hm
  · exact hm
  · cases hm

theorem foldl_chooseStep_map {α β : Type} (f : α → α → Bool) (g : β → β → Bool)
    (h : β → α) (hfb : ∀ a b, f (h a) (h b) = g a b) :
    ∀ (l : List β) (acc : Option β),
      (l.map h).foldl (chooseStep f) (acc.map h) =
        (l.foldl (chooseStep g) acc).map h := by
  intro l
  induction l with
  | nil => intro acc; rfl
  | cons a l ih =>
    intro acc
    simp only [List.map_cons, List.foldl_cons]
    have hstep : chooseStep f (acc.map h) (h a) = (chooseStep g acc a).map h := by
      cases acc with
      | none => rfl
      | some b =>
        show chooseStep f (some (h b)) (h a) = (chooseStep g (some b) a).map h
        simp only [chooseStep, hfb]
        by_cases hg : g a b
        · rw [if_pos hg, if_pos hg]; rfl
        · rw [if_neg hg, if_neg hg]; rfl
    rw [hstep, ih]

theorem chooseBest_map {α β : Type} (f : α → α → Bool) (g : β → β → Bool)
    (h : β → α) (hfb : ∀ a b, f (h a) (h b) = g a b) (l : List β) :
    chooseBest f (l.map h) = (chooseBest g l).map h := by
  have := foldl_chooseStep_map f g h hfb l none
  simpa [chooseBest] using this

/-! ## Helper lemmas: dispatch candidates -/

theorem mem_pullCandidates (db : DB) (w : Worker) (c : Task × Job)
    (h : c ∈ pullCandidates db w) :
    c.1 ∈ db.tasks ∧
    db.jobs.find? (fun j => j.id == c.1.job_id) = some c.2 ∧
    c.1.status = .pending ∧ (c.2.status = .queued ∨ c.2.status = .active) ∧
    c.2.pool ∈ w.pools := by
  obtain ⟨a, ha, hFa⟩ := List.mem_filterMap.mp h
  unfold candidateFor at hFa
  cases hfind : db.jobs.find? (fun j => j.id == a.job_id) with
  | none => rw [hfind] at hFa; cases hFa
  | some j0 =>
    rw [hfind] at hFa
    have hFa2 : (if a.status = .pending ∧ (j0.status = .queued ∨ j0.status = .active) ∧
        j0.pool ∈ w.pools then some (a, j0) else none) = some c := hFa
    by_cases hcond : a.status = .pending ∧ (j0.status = .queued ∨ j0.status = .active) ∧
        j0.pool ∈ w.pools
    · rw [if_pos hcond] at hFa2
      cases hFa2
      exact ⟨ha, hfind, hcond.1, hcond.2.1, hcond.2.2⟩
    · rw [if_neg hcond] at hFa2
      cases hFa2

theorem getNextTaskForWorker_spec (db : DB) (w : Worker) (t0 : Task)
    (h : getNextTaskForWorker db w = some t0) :
    t0 ∈ db.tasks ∧ t0.status = .pending ∧
    ∃ j, db.jobs.find? (fun x => x.id == t0.job_id) = some j ∧
      (j.status = .queued ∨ j.status = .active) ∧ j.pool ∈ w.pools := by
  unfold getNextTaskForWorker at h
  cases hc : chooseBest pullBefore (pullCandidates db w) with
  | none => rw [hc] at h; cases h
  | some c =>
    rw [hc] at h
    cases h
    have hm := chooseBest_mem _ _ _ hc
    obtain ⟨h1, h2, h3, h4, h5⟩ := mem_pullCandidates db w c hm
    exact ⟨h1, h3, c.2, h2, h4, h5⟩

/-! ## Claim C1 -/

/-- C1 counterexample: the pull path applies no dependency check.  In a store
whose single queued job depends on the nonexistent job id "ghost", the
worker's pull still returns that job's task, refuting the claim that a task
of a job with an uncompleted (here nonexistent) dependency is never
returned. -/
theorem claim_C1_counterexample :
    (requestTask dbC1 "w1" 5).1 =
      .ok (some ({ taskC1 with status := .assigned, assigned_worker := some "w1" },
                 some { jobC1 with status := .active, started_at := some 5 })) ∧
    jobC1.dependent_on = ["ghost"] ∧ dbC1.getJob "ghost" = none := by
  decide

/-- C1 amended: the pull's task selection reads only task status, job status,
pool membership and the ordering keys; it never consults dependent_on, so the
result is invariant under arbitrarily rewriting every job's dependent_on
list (in particular a task whose job has uncompleted or nonexistent
dependencies is returned all the same). -/
theorem claim_C1_amended (db : DB) (w : Worker) (f : Job → List String) :
    getNextTaskForWorker
      { db with jobs := db.jobs.map (fun j => { j with dependent_on := f j }) } w =
    getNextTaskForWorker db w := by
  have hpt : ∀ t, candidateFor
      { db with jobs := db.jobs.map (fun j => { j with dependent_on := f j }) } w t =
      (candidateFor db w t).map (fun c => (c.1, { c.2 with dependent_on := f c.2 })) := by
    intro t
    unfold candidateFor
    have hjobs :
        ({ db with jobs := db.jobs.map (fun j => { j with dependent_on := f j }) } : DB).jobs =
          db.jobs.map (fun j => { j with dependent_on := f j }) := rfl
    rw [hjobs, find?_map_pred db.jobs (fun j => { j with dependent_on := f j })
      (fun j => j.id == t.job_id) (fun x => rfl)]
    cases hf : db.jobs.find? (fun j => j.id == t.job_id) with
    | none => rfl
    | some j =>
      show (if t.status = TaskStatus.pending ∧
            (j.status = JobStatus.queued ∨ j.status = JobStatus.active) ∧
            j.pool ∈ w.pools
          then some ((t, ({ j with dependent_on := f j } : Job)) : Task × Job) else none) =
        (if t.status = TaskStatus.pending ∧
            (j.status = JobStatus.queued ∨ j.status = JobStatus.active) ∧
            j.pool ∈ w.pools
          then some ((t, j) : Task × Job) else none).map
            (fun c : Task × Job => (c.1, ({ c.2 with dependent_on := f c.2 } : Job)))
      by_cases hc : t.status = TaskStatus.pending ∧
          (j.status = JobStatus.queued ∨ j.status = JobStatus.active) ∧
          j.pool ∈ w.pools
      · rw [if_pos hc, if_pos hc]; rfl
      · rw [if_neg hc, if_neg hc]; rfl
  have hcand : pullCandidates
      { db with jobs := db.jobs.map (fun j => { j with dependent_on := f j }) } w =
      (pullCandidates db w).map (fun c => (c.1, { c.2 with dependent_on := f c.2 })) := by
    unfold pullCandidates
    rw [List.map_filterMap]
    have htasks :
        ({ db with jobs := db.jobs.map (fun j => { j with dependent_on := f j }) } : DB).tasks =
          db.tasks := rfl
    rw [htasks]
    exact List.filterMap_congr (fun t _ => hpt t)
  unfold getNextTaskForWorker
  rw [hcand, chooseBest_map pullBefore pullBefore
    (fun c => (c.1, { c.2 with dependent_on := f c.2 })) (fun a b => rfl)]
  cases chooseBest pullBefore (pullCandidates db w) <;> rfl

/-! ## Claim C2 -/

/-- C2 counterexample: the pull path applies no capability check.  A worker
whose capabilities are exactly ["ffmpeg"] is handed the task of an
"aftereffects" job, refuting the claim that only tasks whose job plugin is
among the worker's capabilities are returned. -/
theorem claim_C2_counterexample :
    (requestTask dbC2 "w2" 5).1 =
      .ok (some ({ taskC2 with status := .assigned, assigned_worker := some "w2" },
                 some { jobC2 with status := .active, started_at := some 5 })) ∧
    jobC2.plugin = "aftereffects" ∧ workerC2.capabilities = ["ffmpeg"] ∧
    jobC2.plugin ∉ workerC2.capabilities := by
  decide

/-- C2 amended: the dispatch primitive ignores the worker's capabilities
entirely — its result is invariant under replacing the capability list by any
other list; filtering is by pool (and task/job status) only. -/
theorem claim_C2_amended (db : DB) (w : Worker) (caps : List String) :
    getNextTaskForWorker db { w with capabilities := caps } =
    getNextTaskForWorker db w := rfl

/-! ## Helper lemmas: row lookups after updates -/

theorem getTask_id (db : DB) (tid : String) (t : Task)
    (hf : db.getTask tid = some t) : t.id = tid := by
  have h := List.find?_some hf
  simpa using h

theorem getWorker_id (db : DB) (wid : String) (w : Worker)
    (hf : db.getWorker wid = some w) : w.id = wid := by
  have h := List.find?_some hf
  simpa using h

theorem getJob_id (db : DB) (jid : String) (j : Job)
    (hf : db.getJob jid = some j) : j.id = jid := by
  have h := List.find?_some hf
  simpa using h

theorem find?_id_map_eq {α : Type} (key : α → String) (l : List α) (g : α → α)
    (s : String) (hp : ∀ x, (key (g x) == s) = (key x == s)) (a : α)
    (hf : l.find? (fun x => key x == s) = some a) :
    (l.map g).find? (fun x => key x == s) = some (g a) := by
  rw [find?_map_pred l g _ hp, hf]
  rfl

theorem getTask_updateTask (db : DB) (tid : String) (t0 t1 : Task)
    (hf : db.getTask tid = some t0) (hid : t1.id = t0.id) :
    (db.updateTask t1).getTask tid =
      some { t1 with job_id := t0.job_id, index := t0.index } := by
  have ht0 : t0.id = tid := getTask_id db tid t0 hf
  have hp : ∀ x : Task,
      ((if x.id = t1.id then { t1 with job_id := x.job_id, index := x.index } else x).id
        == tid) = (x.id == tid) := by
    intro x
    by_cases hx : x.id = t1.id <;> simp [hx]
  have h2 : (db.updateTask t1).getTask tid =
      some (if t0.id = t1.id then { t1 with job_id := t0.job_id, index := t0.index }
            else t0) :=
    find?_id_map_eq Task.id db.tasks _ tid hp t0 hf
  rw [if_pos hid.symm] at h2
  exact h2

theorem getWorker_updateWorkerHeartbeat (db : DB) (wid : String) (w : Worker)
    (hb : HeartbeatData) (now : Int) (hf : db.getWorker wid = some w) :
    (db.updateWorkerHeartbeat wid hb now).getWorker wid =
      some { w with status := hb.status.getD .idle,
                    current_task := hb.current_task,
                    cpu_usage := hb.cpu_usage.getD 0,
                    memory_used := hb.memory_used.getD 0,
                    last_heartbeat := some now } := by
  have hwid : w.id = wid := getWorker_id db wid w hf
  have hp : ∀ x : Worker,
      ((if x.id = wid then
          { x with status := hb.status.getD .idle, current_task := hb.current_task,
                   cpu_usage := hb.cpu_usage.getD 0, memory_used := hb.memory_used.getD 0,
                   last_heartbeat := some now }
        else x).id == wid) = (x.id == wid) := by
    intro x
    by_cases hx : x.id = wid <;> simp [hx]
  have h2 : (db.updateWorkerHeartbeat wid hb now).getWorker wid =
      some (if w.id = wid then
          { w with status := hb.status.getD .idle, current_task := hb.current_task,
                   cpu_usage := hb.cpu_usage.getD 0, memory_used := hb.memory_used.getD 0,
                   last_heartbeat := some now }
        else w) :=
    find?_id_map_eq Worker.id db.workers _ wid hp w hf
  rw [if_pos hwid] at h2
  exact h2

theorem getWorker_upsertWorker (db : DB) (w1 : Worker) (wid : String) (w : Worker)
    (hf : db.getWorker wid = some w) (hid : w1.id = wid) :
    (db.upsertWorker w1).getWorker wid = some w1 := by
  have hwid : w.id = wid := getWorker_id db wid w hf
  have hmem : w ∈ db.workers := List.mem_of_find?_eq_some hf
  have hany : db.workers.any (fun r => r.id == w1.id) = true := by
    rw [List.any_eq_true]
    exact ⟨w, hmem, by rw [hwid, hid]; simp⟩
  have hp : ∀ x : Worker,
      ((if x.id = w1.id then w1 else x).id == wid) = (x.id == wid) := by
    intro x
    by_cases hx : x.id = w1.id <;> simp [hx]
  have h2 : ({ db with
      workers := db.workers.map (fun r => if r.id = w1.id then w1 else r) } : DB).getWorker
        wid = some (if w.id = w1.id then w1 else w) :=
    find?_id_map_eq Worker.id db.workers _ wid hp w hf
  rw [if_pos (by rw [hwid, hid])] at h2
  unfold DB.upsertWorker
  rw [if_pos hany]
  exact h2

theorem mem_markWorkerOffline (db : DB) (wid : String) (v : Worker)
    (hv : v ∈ (db.markWorkerOffline wid).workers) (hid : v.id = wid) :
    v.status = .offline ∧ v.current_task = none := by
  unfold DB.markWorkerOffline at hv
  obtain ⟨u, hu, hvu⟩ := List.mem_map.mp hv
  by_cases hu2 : u.id = wid
  · rw [if_pos hu2] at hvu
    rw [← hvu]
    exact ⟨rfl, rfl⟩
  · rw [if_neg hu2] at hvu
    rw [← hvu] at hid
    exact absurd hid hu2

/-! ## Claim C5 -/

/-- C5 counterexample: the heartbeat overwrites the store's status and
current_task with the worker-reported values.  A worker the store records as
busy on task t5 reports idle with no current task; afterwards the stored row
is idle with no current task, refuting the claim that the stored status and
current_task are left unchanged when the report disagrees. -/
theorem claim_C5_counterexample :
    (workerHeartbeat dbC5 "w5" hbC5 9).2.getWorker "w5" =
      some { workerC5 with
             status := .idle, current_task := none,
             cpu_usage := 3, memory_used := 4, last_heartbeat := some 9 } ∧
    workerC5.status = .busy ∧ workerC5.current_task = some "t5" := by
  decide

/-- C5 amended: for a registered worker, the heartbeat handler returns ok and
stores exactly the reported status (idle when absent), reported current_task,
reported telemetry and a fresh last_heartbeat, regardless of what the store
previously held — the worker's report, not the store, is authoritative. -/
theorem claim_C5_amended (db : DB) (wid : String) (w : Worker)
    (hb : HeartbeatData) (now : Int) (hw : db.getWorker wid = some w) :
    (workerHeartbeat db wid hb now).1 = .ok () ∧
    (workerHeartbeat db wid hb now).2.getWorker wid =
      some { w with status := hb.status.getD .idle,
                    current_task := hb.current_task,
                    cpu_usage := hb.cpu_usage.getD 0,
                    memory_used := hb.memory_used.getD 0,
                    last_heartbeat := some now } := by
  unfold workerHeartbeat
  rw [hw]
  exact ⟨rfl, getWorker_updateWorkerHeartbeat db wid w hb now hw⟩

/-- C5 witness: a concrete disagreeing heartbeat processed through the
amended theorem. -/
theorem claim_C5_witness :
    (workerHeartbeat dbC5 "w5" hbC5 9).1 = .ok () ∧
    (workerHeartbeat dbC5 "w5" hbC5 9).2.getWorker "w5" =
      some { workerC5 with
                    status := hbC5.status.getD .idle,
                    current_task := hbC5.current_task,
                    cpu_usage := hbC5.cpu_usage.getD 0,
                    memory_used := hbC5.memory_used.getD 0,
                    last_heartbeat := some 9 } :=
  claim_C5_amended dbC5 "w5" workerC5 hbC5 9 (by decide)

/-! ## Claim C7 -/

/-- C7: a non-offline worker with a heartbeat is left untouched by the sweep
when now - last_heartbeat equals the 60s timeout exactly; when strictly
greater, the worker's row is marked offline with its current task cleared,
and a current task in status running is reset to pending with
assigned_worker cleared. -/
theorem claim_C7 (db : DB) (w : Worker) (now hb : Int)
    (hoff : w.status ≠ .offline) (hhb : w.last_heartbeat = some hb) :
    (now - hb = workerTimeout → sweepWorker now db w = db) ∧
    (now - hb > workerTimeout →
      (∀ v ∈ (sweepWorker now db w).workers, v.id = w.id →
         v.status = .offline ∧ v.current_task = none) ∧
      (∀ tid t, w.current_task = some tid → db.getTask tid = some t →
         t.status = .running →
         (sweepWorker now db w).getTask tid =
           some { t with status := .pending, assigned_worker := none })) := by
  have hred : sweepWorker now db w =
      (if now - hb > workerTimeout then (sweepTaskReset db w).markWorkerOffline w.id
       else db) := by
    unfold sweepWorker
    rw [if_neg hoff, hhb]
  constructor
  · intro heq
    have hngt : ¬ (now - hb > workerTimeout) := by rw [heq]; exact lt_irrefl _
    rw [hred, if_neg hngt]
  · intro hgt
    rw [hred, if_pos hgt]
    constructor
    · intro v hv hvid
      exact mem_markWorkerOffline _ w.id v hv hvid
    · intro tid t hct hT hrun
      have hreset : sweepTaskReset db w =
          db.updateTask { t with status := .pending, assigned_worker := none } := by
        unfold sweepTaskReset
        rw [hct]
        show (match db.getTask tid with
          | none => db
          | some t =>
            if t.status = TaskStatus.running then
              db.updateTask { t with status := .pending, assigned_worker := none }
            else db) = _
        rw [hT]
        show (if t.status = TaskStatus.running then
            db.updateTask { t with status := .pending, assigned_worker := none }
          else db) = _
        rw [if_pos hrun]
      have hmk : (((sweepTaskReset db w).markWorkerOffline w.id)).getTask tid =
          (sweepTaskReset db w).getTask tid := rfl
      rw [hmk, hreset]
      exact getTask_updateTask db tid t
        { t with status := .pending, assigned_worker := none } hT rfl

/-- C7 witness: a running task held by a worker silent for 100s is reset and
nothing happens at exactly 60s. -/
theorem claim_C7_witness :
    sweepWorker 60 dbC7 workerC7 = dbC7 ∧
    (sweepWorker 100 dbC7 workerC7).getTask "t7" =
      some { taskC7 with status := .pending, assigned_worker := none } := by
  have h60 := claim_C7 dbC7 workerC7 60 0 (by decide) rfl
  have h100 := claim_C7 dbC7 workerC7 100 0 (by decide) rfl
  exact ⟨h60.1 (by decide), (h100.2 (by decide)).2 "t7" taskC7 rfl (by decide) (by decide)⟩

/-! ## Claim C4 -/

/-- The effect of the assignment block on the stores it returns: the returned
task is the candidate marked assigned to the worker, the task row holds it,
and the worker row is busy on it. -/
theorem assignTask_spec (db : DB) (w : Worker) (wid : String) (t0 : Task)
    (now : Int) (hf : db.getTask t0.id = some t0) (hwf : db.getWorker wid = some w)
    (t : Task) (jres : Option Job) (db2 : DB)
    (h : assignTask db w wid t0 now = (.ok (some (t, jres)), db2)) :
    t = { t0 with status := .assigned, assigned_worker := some wid } ∧
    db2.getTask t0.id = some t ∧
    db2.getWorker wid = some { w with status := .busy, current_task := some t0.id } := by
  have htask : (db.updateTask
      { t0 with status := .assigned, assigned_worker := some wid }).getTask t0.id =
      some { t0 with status := .assigned, assigned_worker := some wid } :=
    getTask_updateTask db t0.id t0 _ hf rfl
  have hwf1 : (db.updateTask
      { t0 with status := .assigned, assigned_worker := some wid }).getWorker wid =
      some w := hwf
  have hworker : ((db.updateTask
      { t0 with status := .assigned, assigned_worker := some wid }).upsertWorker
      { w with status := .busy, current_task := some t0.id }).getWorker wid =
      some { w with status := .busy, current_task := some t0.id } :=
    getWorker_upsertWorker _ _ wid w hwf1 (getWorker_id db wid w hwf)
  have htask2 : ((db.updateTask
      { t0 with status := .assigned, assigned_worker := some wid }).upsertWorker
      { w with status := .busy, current_task := some t0.id }).getTask t0.id =
      some { t0 with status := .assigned, assigned_worker := some wid } := by
    have hts := tasks_upsertWorker (db.updateTask
      { t0 with status := .assigned, assigned_worker := some wid })
      { w with status := .busy, current_task := some t0.id }
    unfold DB.getTask
    rw [hts]
    exact htask
  unfold assignTask at h
  dsimp only at h
  split at h
  · rw [Prod.mk.injEq] at h
    obtain ⟨h1, h2⟩ := h
    cases h1
    refine ⟨rfl, ?_, ?_⟩
    · rw [← h2]; exact htask2
    · rw [← h2]; exact hworker
  · split at h
    · rw [Prod.mk.injEq] at h
      obtain ⟨h1, h2⟩ := h
      cases h1
      refine ⟨rfl, ?_, ?_⟩
      · rw [← h2]
        unfold DB.getTask
        rw [tasks_updateJob]
        exact htask2
      · rw [← h2]
        unfold DB.getWorker
        rw [workers_updateJob]
        exact hworker
    · rw [Prod.mk.injEq] at h
      obtain ⟨h1, h2⟩ := h
      cases h1
      refine ⟨rfl, ?_, ?_⟩
      · rw [← h2]; exact htask2
      · rw [← h2]; exact hworker

/-- C4 counterexample: the mutual task/worker invariant holds in a store with
one busy worker holding an assigned (not yet running) task, and is broken by
one timeout sweep: the sweep marks the worker offline but only resets tasks
in status running, leaving the assigned task pointing at an offline
worker. -/
theorem claim_C4_counterexample :
    taskWorkerLinked dbC4 = true ∧
    taskWorkerLinked (checkWorkerTimeouts dbC4 100) = false := by
  decide

/-- C4 amended: the invariant is not preserved by every coordinator operation
(the timeout sweep breaks it, see the counterexample), but a successful
dispatch does establish it for the pair it touches: when request_task hands
task t to worker wid, the resulting store has t assigned with
assigned_worker = wid and the worker busy with current_task = t.id. -/
theorem claim_C4_amended (db : DB) (wid : String) (now : Int) (t : Task)
    (jres : Option Job) (db2 : DB) (hnd : (db.tasks.map Task.id).Nodup)
    (h : requestTask db wid now = (.ok (some (t, jres)), db2)) :
    t.status = .assigned ∧ t.assigned_worker = some wid ∧
    db2.getTask t.id = some t ∧
    ∃ w1, db2.getWorker wid = some w1 ∧ w1.status = .busy ∧
      w1.current_task = some t.id := by
  unfold requestTask at h
  cases hw : db.getWorker wid with
  | none => rw [hw] at h; simp at h
  | some w =>
    rw [hw] at h
    dsimp only at h
    by_cases hidle : w.status ≠ .idle
    · rw [if_pos hidle] at h
      simp at h
    · rw [if_neg hidle] at h
      cases hpull : getNextTaskForWorker db w with
      | none => rw [hpull] at h; simp at h
      | some t0 =>
        rw [hpull] at h
        dsimp only at h
        have hmem : t0 ∈ db.tasks := (getNextTaskForWorker_spec db w t0 hpull).1
        have hf : db.getTask t0.id = some t0 :=
          find?_key_eq_some Task.id db.tasks t0 hmem hnd
        obtain ⟨h1, h2, h3⟩ := assignTask_spec db w wid t0 now hf hw t jres db2 h
        subst h1
        exact ⟨rfl, rfl, h2, ⟨_, h3, rfl, rfl⟩⟩

/-- C4 witness: a concrete successful dispatch establishing the linkage. -/
theorem claim_C4_witness :
    ({ taskC4w with status := .assigned, assigned_worker := some "w4w" } : Task).status
      = .assigned ∧
    ({ taskC4w with status := .assigned, assigned_worker := some "w4w" } : Task).assigned_worker
      = some "w4w" ∧
    (requestTask dbC4w "w4w" 5).2.getTask "t4w" =
      some { taskC4w with status := .assigned, assigned_worker := some "w4w" } ∧
    ∃ w1, (requestTask dbC4w "w4w" 5).2.getWorker "w4w" = some w1 ∧
      w1.status = .busy ∧ w1.current_task = some "t4w" :=
  claim_C4_amended dbC4w "w4w" 5
    { taskC4w with status := .assigned, assigned_worker := some "w4w" }
    (some { jobC4w with status := .active, started_at := some 5 })
    (requestTask dbC4w "w4w" 5).2 (by decide) (by decide)

/-! ## Claim C9 -/

/-- Rows of a job cancelled through update_job_status carry status cancelled,
a fresh finished_at and the given error message. -/
theorem mem_updateJobStatus_cancelled (db : DB) (jid : String) (e : Option String)
    (now : Int) (r : Job) (hr : r ∈ (db.updateJobStatus jid .cancelled e now).jobs)
    (hrid : r.id = jid) :
    r.status = .cancelled ∧ r.finished_at = some now ∧ r.error_message = e := by
  unfold DB.updateJobStatus at hr
  obtain ⟨u, hu, huv⟩ := List.mem_map.mp hr
  by_cases hu2 : u.id = jid
  · rw [if_pos hu2] at huv
    rw [if_neg (by decide), if_pos (by decide)] at huv
    rw [← huv]
    exact ⟨rfl, rfl, rfl⟩
  · rw [if_neg hu2] at huv
    rw [← huv] at hrid
    exact absurd hrid hu2

/-- C9 counterexample: Scheduler.cancel_job performs no state check — it
cancels a job already in the terminal state completed, reporting success,
refuting the claim that cancel on a terminal job is rejected and leaves the
status unchanged. -/
theorem claim_C9_counterexample :
    (cancelJobSched dbC9 "J9" 5).1 = true ∧
    ((cancelJobSched dbC9 "J9" 5).2.getJob "J9").map Job.status =
      some .cancelled ∧
    jobC9.status = .completed := by
  decide

/-- C9 amended: cancel succeeds on every existing job regardless of state —
terminal states included — setting status cancelled with finished_at = now
and error_message cleared; the endpoint answers 400 only when the job does
not exist. -/
theorem claim_C9_amended (db : DB) (jid : String) (now : Int) :
    (db.getJob jid = none → cancelJobEndpoint db jid now = (.error 400, db)) ∧
    (∀ job, db.getJob jid = some job →
      (cancelJobEndpoint db jid now).1 = .ok () ∧
      (cancelJobEndpoint db jid now).2 = db.updateJobStatus jid .cancelled none now ∧
      ∀ r ∈ (cancelJobEndpoint db jid now).2.jobs, r.id = jid →
        r.status = .cancelled ∧ r.finished_at = some now ∧
        r.error_message = none) := by
  constructor
  · intro hnone
    unfold cancelJobEndpoint cancelJobSched
    rw [hnone]
    rfl
  · intro job hjob
    unfold cancelJobEndpoint cancelJobSched
    rw [hjob]
    refine ⟨rfl, rfl, ?_⟩
    intro r hr hrid
    exact mem_updateJobStatus_cancelled db jid none now r hr hrid

/-- C9 witness: cancelling an existing completed job through the endpoint. -/
theorem claim_C9_witness :
    (cancelJobEndpoint dbC9w "J9w" 5).1 = .ok () ∧
    (cancelJobEndpoint dbC9w "J9w" 5).2 =
      dbC9w.updateJobStatus "J9w" .cancelled none 5 ∧
    ∀ r ∈ (cancelJobEndpoint dbC9w "J9w" 5).2.jobs, r.id = "J9w" →
      r.status = .cancelled ∧ r.finished_at = some 5 ∧ r.error_message = none :=
  (claim_C9_amended dbC9w "J9w" 5).2 jobC9w (by decide)

/-! ## Claim C3 -/

/-- C3 counterexample: an active job with one completed and one failed task
(so completed + failed = task count and failed is nonzero, with failed <
total and failed ≤ max_task_retries) is left in status active by the
scheduler's aggregation step, refuting the claim that the step always marks
such a job failed. -/
theorem claim_C3_counterexample :
    completedCount dbC3 "J3" = 1 ∧ failedCount dbC3 "J3" = 1 ∧
    totalCount dbC3 "J3" = 2 ∧
    ((aggregateStep dbC3 "J3" 9 []).getJob "J3").map Job.status =
      some .active := by
  decide

/-- C3 amended: the aggregation step marks an active job failed (with
finished_at = now and the "N tasks failed" message) only when, in addition to
completed + failed ≥ total and failed nonzero, either failed ≥ total or
failed > max_task_retries (3); under those conditions it does so. -/
theorem claim_C3_amended (db : DB) (job : Job) (now : Int)
    (fus : List FollowUpData)
    (hne : ¬ ((db.getTasksByJob job.id).isEmpty = true))
    (hterm : completedCount db job.id + failedCount db job.id ≥ totalCount db job.id)
    (hf0 : ¬ (failedCount db job.id = 0))
    (hcond : failedCount db job.id ≥ totalCount db job.id ∨
      failedCount db job.id > maxTaskRetries) :
    aggregateJob db job now fus =
      db.updateJob { job with
        progress := progressOf db job.id,
        task_completed := completedCount db job.id,
        task_failed := failedCount db job.id,
        status := .failed, finished_at := some now,
        error_message := some (toString (failedCount db job.id) ++ " tasks failed") } := by
  unfold completedCount failedCount totalCount at hterm
  unfold failedCount at hf0
  unfold failedCount totalCount at hcond
  unfold aggregateJob
  rw [if_neg hne, if_pos hterm, if_neg hf0, if_pos hcond]
  unfold progressOf progressSumOf totalCount completedCount failedCount
  rfl

/-- C3 witness: a single-task active job whose task failed is marked failed
by the aggregation step. -/
theorem claim_C3_witness :
    aggregateJob dbC3w jobC3w 7 [] =
      dbC3w.updateJob { jobC3w with
        progress := progressOf dbC3w jobC3w.id,
        task_completed := completedCount dbC3w jobC3w.id,
        task_failed := failedCount dbC3w jobC3w.id,
        status := .failed, finished_at := some 7,
        error_message := some (toString (failedCount dbC3w jobC3w.id) ++ " tasks failed") } :=
  claim_C3_amended dbC3w jobC3w 7 [] (by decide) (by decide) (by decide) (by decide)

/-! ## Claim C8 -/

theorem retryRowStep_id (x t : Task) : (retryRowStep x t).id = x.id := by
  unfold retryRowStep
  by_cases h1 : t.status = .failed
  · rw [if_pos h1]
    by_cases h2 : x.id = t.id
    · rw [if_pos h2]
      exact h2.symm
    · rw [if_neg h2]
  · rw [if_neg h1]

theorem retry_rowFold_id (L : List Task) (x : Task) :
    (L.foldl retryRowStep x).id = x.id := by
  induction L generalizing x with
  | nil => rfl
  | cons u L ih => rw [List.foldl_cons, ih, retryRowStep_id]

theorem retry_foldl_jobs (L : List Task) (db : DB) :
    (L.foldl retryDbStep db).jobs = db.jobs := by
  induction L generalizing db with
  | nil => rfl
  | cons u L ih =>
    rw [List.foldl_cons, ih]
    unfold retryDbStep
    by_cases h1 : u.status = .failed
    · rw [if_pos h1]
      exact jobs_updateTask db _
    · rw [if_neg h1]

theorem retry_foldl_tasks (L : List Task) (db : DB) :
    (L.foldl retryDbStep db).tasks =
      db.tasks.map (fun r => L.foldl retryRowStep r) := by
  induction L generalizing db with
  | nil =>
    show db.tasks = db.tasks.map (fun r => r)
    rw [List.map_id']
  | cons u L ih =>
    rw [List.foldl_cons, ih]
    by_cases h1 : u.status = .failed
    · have hstep : (retryDbStep db u).tasks =
          db.tasks.map (fun r => retryRowStep r u) := by
        unfold retryDbStep
        rw [if_pos h1]
        show db.tasks.map (fun r =>
          if r.id = (retryTaskReset u).id then
            { retryTaskReset u with job_id := r.job_id, index := r.index }
          else r) = _
        apply List.map_congr_left
        intro r _
        show (if r.id = u.id then
            { retryTaskReset u with job_id := r.job_id, index := r.index }
          else r) = retryRowStep r u
        unfold retryRowStep
        rw [if_pos h1]
      rw [hstep, List.map_map]
      apply List.map_congr_left
      intro r _
      show L.foldl retryRowStep (retryRowStep r u) =
        List.foldl retryRowStep r (u :: L)
      rw [List.foldl_cons]
    · have hstep : (retryDbStep db u).tasks = db.tasks := by
        unfold retryDbStep
        rw [if_neg h1]
      rw [hstep]
      apply List.map_congr_left
      intro r _
      show L.foldl retryRowStep r = List.foldl retryRowStep r (u :: L)
      rw [List.foldl_cons]
      unfold retryRowStep
      rw [if_neg h1]

theorem retry_row_fixed (r : Task) (L : List Task)
    (hL : ∀ u ∈ L, u.id = r.id → u = r) :
    L.foldl retryRowStep (retryTaskReset r) = retryTaskReset r := by
  induction L with
  | nil => rfl
  | cons u L ih =>
    rw [List.foldl_cons]
    have hstep : retryRowStep (retryTaskReset r) u = retryTaskReset r := by
      unfold retryRowStep
      by_cases h1 : u.status = .failed
      · rw [if_pos h1]
        by_cases h2 : (retryTaskReset r).id = u.id
        · have hu : u = r := hL u (List.mem_cons_self u L) (by exact h2.symm)
          subst hu
          rw [if_pos h2]
        · rw [if_neg h2]
      · rw [if_neg h1]
    rw [hstep]
    exact ih (fun u hu => hL u (List.mem_cons_of_mem _ hu))

theorem retry_row_eval (r : Task) (L : List Task)
    (hL : ∀ u ∈ L, u.id = r.id → u = r) :
    L.foldl retryRowStep r =
      (if r ∈ L ∧ r.status = .failed then retryTaskReset r else r) := by
  induction L with
  | nil =>
    rw [List.foldl_nil, if_neg (by simp)]
  | cons u L ih =>
    rw [List.foldl_cons]
    by_cases hid : u.id = r.id
    · have hu : u = r := hL u (List.mem_cons_self u L) hid
      subst hu
      by_cases hs : u.status = .failed
      · have hstep : retryRowStep u u = retryTaskReset u := by
          unfold retryRowStep
          rw [if_pos hs, if_pos rfl]
          rfl
        rw [hstep, retry_row_fixed u L (fun v hv => hL v (List.mem_cons_of_mem _ hv)),
          if_pos ⟨List.mem_cons_self u L, hs⟩]
      · have hstep : retryRowStep u u = u := by
          unfold retryRowStep
          rw [if_neg hs]
        rw [hstep, ih (fun v hv => hL v (List.mem_cons_of_mem _ hv))]
        rw [if_neg (fun hc => hs hc.2), if_neg (fun hc => hs hc.2)]
    · have hstep : retryRowStep r u = r := by
        unfold retryRowStep
        by_cases h1 : u.status = .failed
        · rw [if_pos h1, if_neg (fun he => hid he.symm)]
        · rw [if_neg h1]
      rw [hstep, ih (fun v hv => hL v (List.mem_cons_of_mem _ hv))]
      have hiff : (r ∈ L ∧ r.status = .failed) ↔ (r ∈ u :: L ∧ r.status = .failed) := by
        constructor
        · exact fun hc => ⟨List.mem_cons_of_mem _ hc.1, hc.2⟩
        · intro hc
          rcases List.mem_cons.mp hc.1 with hru | hrl
          · exact absurd (hru ▸ rfl : u.id = r.id) hid
          · exact ⟨hrl, hc.2⟩
      rw [if_congr hiff rfl rfl]

theorem getJob_updateJob (db : DB) (jid : String) (j0 j1 : Job)
    (hf : db.getJob jid = some j0) (hid : j1.id = j0.id) :
    (db.updateJob j1).getJob jid = some { j1 with submitted_at := j0.submitted_at } := by
  have hp : ∀ x : Job,
      ((if x.id = j1.id then { j1 with submitted_at := x.submitted_at } else x).id
        == jid) = (x.id == jid) := by
    intro x
    by_cases hx : x.id = j1.id
    · rw [if_pos hx]
      show (j1.id == jid) = (x.id == jid)
      rw [hx]
    · rw [if_neg hx]
  have h2 : (db.updateJob j1).getJob jid =
      some (if j0.id = j1.id then { j1 with submitted_at := j0.submitted_at } else j0) :=
    find?_id_map_eq Job.id db.jobs _ jid hp j0 hf
  rw [if_pos hid.symm] at h2
  exact h2

/-- C8 counterexample: Scheduler.retry_job does not touch Job.progress.  A
failed job stored with progress 77 whose only task failed (zero completed)
still has progress 77 after retry, not the completed fraction 0, refuting
the recomputation part of the claim. -/
theorem claim_C8_counterexample :
    (retryJobSched dbC8 "J8").1 = true ∧
    ((retryJobSched dbC8 "J8").2.getJob "J8").map Job.progress = some 77 ∧
    completedCount dbC8 "J8" = 0 ∧ (77 : Rat) ≠ 0 := by
  decide

/-- C8 amended: retrying a failed job keeps the task id list unchanged,
resets exactly the failed tasks of that job to pending (clearing
assigned_worker, exit_code and error_message), leaves every other task row
unchanged, and re-queues the job clearing task_failed, error_message and
finished_at — while Job.progress keeps its previous value (it is not
recomputed). -/
theorem claim_C8_amended (db : DB) (jid : String) (job : Job)
    (hj : db.getJob jid = some job) (hfail : job.status = .failed)
    (hnd : (db.tasks.map Task.id).Nodup) :
    (retryJobSched db jid).1 = true ∧
    (retryJobSched db jid).2.tasks.map Task.id = db.tasks.map Task.id ∧
    (∀ t ∈ db.tasks, t.job_id = jid → t.status = .failed →
       (retryJobSched db jid).2.getTask t.id = some (retryTaskReset t)) ∧
    (∀ t ∈ db.tasks, (t.job_id ≠ jid ∨ t.status ≠ .failed) →
       (retryJobSched db jid).2.getTask t.id = some t) ∧
    (retryJobSched db jid).2.getJob jid =
      some { job with
             status := .queued, task_failed := 0,
             error_message := none, finished_at := none } := by
  have hinj : ∀ u ∈ db.tasks, ∀ v ∈ db.tasks, u.id = v.id → u = v := by
    intro u hu v hv huv
    exact List.inj_on_of_nodup_map hnd hu hv huv
  have hred : retryJobSched db jid =
      (true, ((db.getTasksByJob jid).foldl retryDbStep db).updateJob
        { job with
          status := .queued, task_failed := 0,
          error_message := none, finished_at := none }) := by
    unfold retryJobSched
    rw [hj]
    dsimp only
    rw [if_neg (by simp [hfail])]
  have hL : ∀ r ∈ db.tasks, ∀ u ∈ db.getTasksByJob jid, u.id = r.id → u = r := by
    intro r hr u hu huid
    exact hinj u (List.mem_filter.mp hu).1 r hr huid
  have htasks : (retryJobSched db jid).2.tasks =
      db.tasks.map (fun r => (db.getTasksByJob jid).foldl retryRowStep r) := by
    rw [hred]
    show (((db.getTasksByJob jid).foldl retryDbStep db).updateJob _).tasks = _
    rw [tasks_updateJob, retry_foldl_tasks]
  refine ⟨by rw [hred], ?_, ?_, ?_, ?_⟩
  · rw [htasks, List.map_map]
    apply List.map_congr_left
    intro r _
    exact retry_rowFold_id _ r
  · intro t ht htj hts
    have hft : db.tasks.find? (fun x => x.id == t.id) = some t :=
      find?_key_eq_some Task.id db.tasks t ht hnd
    have hp : ∀ x : Task,
        (((db.getTasksByJob jid).foldl retryRowStep x).id == t.id) = (x.id == t.id) := by
      intro x
      rw [retry_rowFold_id]
    have h2 : (retryJobSched db jid).2.getTask t.id =
        some ((db.getTasksByJob jid).foldl retryRowStep t) := by
      show (retryJobSched db jid).2.tasks.find? (fun x => x.id == t.id) = _
      rw [htasks]
      exact find?_id_map_eq Task.id db.tasks _ t.id hp t hft
    rw [h2, retry_row_eval t _ (hL t ht),
      if_pos ⟨List.mem_filter.mpr ⟨ht, by simp [htj]⟩, hts⟩]
  · intro t ht hother
    have hft : db.tasks.find? (fun x => x.id == t.id) = some t :=
      find?_key_eq_some Task.id db.tasks t ht hnd
    have hp : ∀ x : Task,
        (((db.getTasksByJob jid).foldl retryRowStep x).id == t.id) = (x.id == t.id) := by
      intro x
      rw [retry_rowFold_id]
    have h2 : (retryJobSched db jid).2.getTask t.id =
        some ((db.getTasksByJob jid).foldl retryRowStep t) := by
      show (retryJobSched db jid).2.tasks.find? (fun x => x.id == t.id) = _
      rw [htasks]
      exact find?_id_map_eq Task.id db.tasks _ t.id hp t hft
    rw [h2, retry_row_eval t _ (hL t ht)]
    rw [if_neg ?hneg]
    rcases hother with hoj | hos
    · intro hc
      exact hoj (by simpa using (List.mem_filter.mp hc.1).2)
    · exact fun hc => hos hc.2
  · have hfold : ((db.getTasksByJob jid).foldl retryDbStep db).getJob jid = some job := by
      show ((db.getTasksByJob jid).foldl retryDbStep db).jobs.find?
        (fun x => x.id == jid) = some job
      rw [retry_foldl_jobs]
      exact hj
    have h2 := getJob_updateJob ((db.getTasksByJob jid).foldl retryDbStep db) jid job
      { job with
        status := .queued, task_failed := 0, error_message := none, finished_at := none }
      hfold rfl
    rw [hred]
    exact h2

/-- C8 witness: retrying a concrete failed job with one failed and one
completed task. -/
theorem claim_C8_witness :
    (retryJobSched dbC8w "J8w").1 = true ∧
    (retryJobSched dbC8w "J8w").2.tasks.map Task.id = dbC8w.tasks.map Task.id ∧
    (∀ t ∈ dbC8w.tasks, t.job_id = "J8w" → t.status = .failed →
       (retryJobSched dbC8w "J8w").2.getTask t.id = some (retryTaskReset t)) ∧
    (∀ t ∈ dbC8w.tasks, (t.job_id ≠ "J8w" ∨ t.status ≠ .failed) →
       (retryJobSched dbC8w "J8w").2.getTask t.id = some t) ∧
    (retryJobSched dbC8w "J8w").2.getJob "J8w" =
      some { jobC8w with
             status := .queued, task_failed := 0,
             error_message := none, finished_at := none } :=
  claim_C8_amended dbC8w "J8w" jobC8w (by decide) (by decide) (by decide)

/-! ## Claim C6 -/

theorem deleteJob_no_rows (db : DB) (jid : String) :
    (∀ j ∈ (db.deleteJob jid).jobs, j.id ≠ jid) ∧
    (∀ t ∈ (db.deleteJob jid).tasks, t.job_id ≠ jid) := by
  constructor
  · intro j hj
    have h := (List.mem_filter.mp hj).2
    simpa using h
  · intro t ht
    have h := (List.mem_filter.mp ht).2
    simpa using h

/-- C6: a submission with an unknown plugin or a failed validation is
rejected with 400 and leaves the store untouched; when plugin.create_tasks
raises, or db.add_task raises while persisting task k, the endpoint answers
500 and the store afterwards holds no job row with the submission's job id
and no task row with that job id (delete_job removed them). -/
theorem claim_C6 (db : DB) (job : Job) (vo : Bool)
    (part : Except Unit (List Task)) (pf : Option Nat)
    (tasks : List Task) (k : Nat) :
    submitJob db false vo job part pf = (.error 400, db) ∧
    submitJob db true false job part pf = (.error 400, db) ∧
    ((submitJob db true true job (.error ()) pf).1 = .error 500 ∧
      (∀ j ∈ (submitJob db true true job (.error ()) pf).2.jobs, j.id ≠ job.id) ∧
      (∀ t ∈ (submitJob db true true job (.error ()) pf).2.tasks, t.job_id ≠ job.id)) ∧
    (k < tasks.length →
      (submitJob db true true job (.ok tasks) (some k)).1 = .error 500 ∧
      (∀ j ∈ (submitJob db true true job (.ok tasks) (some k)).2.jobs, j.id ≠ job.id) ∧
      (∀ t ∈ (submitJob db true true job (.ok tasks) (some k)).2.tasks,
        t.job_id ≠ job.id)) := by
  refine ⟨by simp [submitJob], by simp [submitJob], ?_, ?_⟩
  · have h3 : submitJob db true true job (.error ()) pf =
        (.error 500, (db.addJob job).deleteJob job.id) := by
      simp [submitJob]
    rw [h3]
    exact ⟨rfl, (deleteJob_no_rows (db.addJob job) job.id).1,
      (deleteJob_no_rows (db.addJob job) job.id).2⟩
  · intro hk
    have h4 : submitJob db true true job (.ok tasks) (some k) =
        (.error 500, ((tasks.take k).foldl DB.addTask (db.addJob job)).deleteJob job.id) := by
      simp only [submitJob]
      rw [if_neg (by simp), if_neg (by simp)]
      rw [if_pos hk]
    rw [h4]
    exact ⟨rfl, (deleteJob_no_rows _ job.id).1, (deleteJob_no_rows _ job.id).2⟩

/-- C6 witness: concrete rejected and rolled-back submissions. -/
theorem claim_C6_witness :
    submitJob dbC6 false true jobC6 (.ok [taskC6]) none = (.error 400, dbC6) ∧
    ((submitJob dbC6 true true jobC6 (.ok [taskC6]) (some 0)).1 = .error 500 ∧
      (∀ j ∈ (submitJob dbC6 true true jobC6 (.ok [taskC6]) (some 0)).2.jobs,
        j.id ≠ jobC6.id) ∧
      (∀ t ∈ (submitJob dbC6 true true jobC6 (.ok [taskC6]) (some 0)).2.tasks,
        t.job_id ≠ jobC6.id)) :=
  ⟨(claim_C6 dbC6 jobC6 true (.ok [taskC6]) none [taskC6] 0).1,
   (claim_C6 dbC6 jobC6 true (.ok [taskC6]) none [taskC6] 0).2.2.2 (by decide)⟩

/-! ## Claim C10 -/

theorem noTasksOf_of_tasks_eq (jid : String) (db db2 : DB)
    (he : db2.tasks = db.tasks) (h : noTasksOf jid db) : noTasksOf jid db2 := by
  intro t ht
  rw [he] at ht
  exact h t ht

theorem noTasksOf_of_tasks_map (jid : String) (db db2 : DB) (g : Task → Task)
    (he : db2.tasks = db.tasks.map g) (hg : ∀ t, (g t).job_id = t.job_id)
    (h : noTasksOf jid db) : noTasksOf jid db2 := by
  intro t ht
  rw [he] at ht
  obtain ⟨u, hu, rfl⟩ := List.mem_map.mp ht
  rw [hg]
  exact h u hu

theorem noTasksOf_updateTask (jid : String) (db : DB) (t1 : Task)
    (h : noTasksOf jid db) : noTasksOf jid (db.updateTask t1) := by
  apply noTasksOf_of_tasks_map jid db _ _ rfl _ h
  intro t
  by_cases ht : t.id = t1.id <;> simp [ht]

theorem noTasksOf_updateTaskStatus (jid : String) (db : DB) (tid : String)
    (st : TaskStatus) (a b : Option Int) (c : Option Int) (e : Option String)
    (h : noTasksOf jid db) : noTasksOf jid (db.updateTaskStatus tid st a b c e) := by
  apply noTasksOf_of_tasks_map jid db _ _ rfl _ h
  intro t
  by_cases ht : t.id = tid <;> simp [ht]

theorem noTasksOf_updateTaskProgress (jid : String) (db : DB) (tid : String)
    (p : Rat) (h : noTasksOf jid db) : noTasksOf jid (db.updateTaskProgress tid p) := by
  apply noTasksOf_of_tasks_map jid db _ _ rfl _ h
  intro t
  by_cases ht : t.id = tid <;> simp [ht]

theorem noTasksOf_deleteJob (jid : String) (db : DB) (jid2 : String)
    (h : noTasksOf jid db) : noTasksOf jid (db.deleteJob jid2) := by
  intro t ht
  exact h t (List.mem_filter.mp ht).1

theorem noTasksOf_addTask (jid : String) (db : DB) (t : Task)
    (ht : t.job_id ≠ jid) (h : noTasksOf jid db) : noTasksOf jid (db.addTask t) := by
  intro u hu
  rcases List.mem_append.mp hu with hu1 | hu2
  · exact h u hu1
  · rw [List.mem_singleton.mp hu2]
    exact ht

theorem noTasksOf_addTasks_foldl (jid : String) (L : List Task) (db : DB)
    (hL : ∀ t ∈ L, t.job_id ≠ jid) (h : noTasksOf jid db) :
    noTasksOf jid (L.foldl DB.addTask db) := by
  induction L generalizing db with
  | nil => exact h
  | cons u L ih =>
    rw [List.foldl_cons]
    exact ih (db.addTask u) (fun t ht => hL t (List.mem_cons_of_mem _ ht))
      (noTasksOf_addTask jid db u (hL u (List.mem_cons_self u L)) h)

theorem retryRowStep_job_id (x t : Task) : (retryRowStep x t).job_id = x.job_id := by
  unfold retryRowStep
  by_cases h1 : t.status = .failed
  · rw [if_pos h1]
    by_cases h2 : x.id = t.id
    · rw [if_pos h2]
    · rw [if_neg h2]
  · rw [if_neg h1]

theorem retry_rowFold_job_id (L : List Task) (x : Task) :
    (L.foldl retryRowStep x).job_id = x.job_id := by
  induction L generalizing x with
  | nil => rfl
  | cons u L ih => rw [List.foldl_cons, ih, retryRowStep_job_id]

theorem noTasksOf_retryFold (jid : String) (L : List Task) (db : DB)
    (h : noTasksOf jid db) : noTasksOf jid (L.foldl retryDbStep db) := by
  apply noTasksOf_of_tasks_map jid db _ _ (retry_foldl_tasks L db) _ h
  intro t
  exact retry_rowFold_job_id L t

theorem noTasksOf_releaseWorker (jid : String) (db : DB) (task : Task)
    (h : noTasksOf jid db) : noTasksOf jid (releaseWorker db task) :=
  noTasksOf_of_tasks_eq jid db _ (tasks_releaseWorker db task) h

theorem createFollowUpJobs_tasks (db : DB) (parent : Job) (ds : List FollowUpData)
    (now : Int) : (createFollowUpJobs db parent ds now).tasks = db.tasks := by
  induction ds generalizing db with
  | nil => rfl
  | cons d ds ih =>
    show (createFollowUpJobs (db.addJob (mkFollowUpJob parent d now)) parent ds now).tasks = _
    rw [ih]
    rfl

theorem createFollowUpJobs_jobs (db : DB) (parent : Job) (ds : List FollowUpData)
    (now : Int) :
    ∀ j ∈ (createFollowUpJobs db parent ds now).jobs,
      j ∈ db.jobs ∨ (j.status = .pending ∧ j.task_total = 0) := by
  induction ds generalizing db with
  | nil => exact fun j hj => Or.inl hj
  | cons d ds ih =>
    intro j hj
    have hj2 := ih (db.addJob (mkFollowUpJob parent d now)) j hj
    rcases hj2 with hj3 | hj3
    · rcases List.mem_append.mp hj3 with hj4 | hj4
      · exact Or.inl hj4
      · rw [List.mem_singleton.mp hj4]
        exact Or.inr ⟨rfl, rfl⟩
    · exact Or.inr hj3

theorem noTasksOf_createFollowUpJobs (jid : String) (db : DB) (parent : Job)
    (ds : List FollowUpData) (now : Int) (h : noTasksOf jid db) :
    noTasksOf jid (createFollowUpJobs db parent ds now) :=
  noTasksOf_of_tasks_eq jid db _ (createFollowUpJobs_tasks db parent ds now) h

theorem noTasksOf_sweepTaskReset (jid : String) (db : DB) (w : Worker)
    (h : noTasksOf jid db) : noTasksOf jid (sweepTaskReset db w) := by
  unfold sweepTaskReset
  split
  · exact h
  · split
    · exact h
    · split
      · exact noTasksOf_updateTask jid db _ h
      · exact h

theorem noTasksOf_sweepWorker (jid : String) (now : Int) (db : DB) (w : Worker)
    (h : noTasksOf jid db) : noTasksOf jid (sweepWorker now db w) := by
  unfold sweepWorker
  split
  · exact h
  · split
    · exact h
    · split
      · exact noTasksOf_of_tasks_eq jid _ _ (tasks_markWorkerOffline _ _)
          (noTasksOf_sweepTaskReset jid db w h)
      · exact h

theorem noTasksOf_sweepFold (jid : String) (now : Int) (ws : List Worker) (db : DB)
    (h : noTasksOf jid db) : noTasksOf jid (ws.foldl (sweepWorker now) db) := by
  induction ws generalizing db with
  | nil => exact h
  | cons u ws ih =>
    rw [List.foldl_cons]
    exact ih (sweepWorker now db u) (noTasksOf_sweepWorker jid now db u h)

theorem noTasksOf_aggregateJob (jid : String) (db : DB) (job : Job) (now : Int)
    (fus : List FollowUpData) (h : noTasksOf jid db) :
    noTasksOf jid (aggregateJob db job now fus) := by
  unfold aggregateJob
  dsimp only
  split
  · exact h
  · split
    · split
      · exact noTasksOf_of_tasks_eq jid _ _ (tasks_updateJob _ _)
          (noTasksOf_createFollowUpJobs jid db _ fus now h)
      · split
        · exact noTasksOf_of_tasks_eq jid _ _ (tasks_updateJob _ _) h
        · exact noTasksOf_of_tasks_eq jid _ _ (tasks_updateJob _ _) h
    · exact noTasksOf_of_tasks_eq jid _ _ (tasks_updateJob _ _) h

theorem noTasksOf_assignTask (jid : String) (db : DB) (w : Worker) (wid : String)
    (t0 : Task) (now : Int) (h : noTasksOf jid db) :
    noTasksOf jid (assignTask db w wid t0 now).2 := by
  unfold assignTask
  dsimp only
  have hbase : noTasksOf jid ((db.updateTask
      { t0 with status := .assigned, assigned_worker := some wid }).upsertWorker
      { w with status := .busy, current_task := some t0.id }) :=
    noTasksOf_of_tasks_eq jid _ _ (tasks_upsertWorker _ _)
      (noTasksOf_updateTask jid db _ h)
  split
  · exact hbase
  · split
    · exact noTasksOf_of_tasks_eq jid _ _ (tasks_updateJob _ _) hbase
    · exact hbase

theorem noTasksOf_requestTask (jid : String) (db : DB) (wid : String) (now : Int)
    (h : noTasksOf jid db) : noTasksOf jid (requestTask db wid now).2 := by
  unfold requestTask
  split
  · exact h
  · split
    · exact h
    · split
      · exact h
      · exact noTasksOf_assignTask jid db _ wid _ now h

theorem noTasksOf_taskCompleted (jid : String) (db : DB) (tid : String)
    (ec : Int) (now : Int) (h : noTasksOf jid db) :
    noTasksOf jid (taskCompleted db tid ec now).2 := by
  unfold taskCompleted
  split
  · exact h
  · next task heq =>
    dsimp only
    have hbase : noTasksOf jid (releaseWorker
        (db.updateTaskStatus tid .completed none (some now) (some ec) none) task) :=
      noTasksOf_releaseWorker jid _ _
        (noTasksOf_updateTaskStatus jid db tid _ _ _ _ _ h)
    split
    · exact hbase
    · exact noTasksOf_of_tasks_eq jid _ _ (tasks_updateJob _ _) hbase

theorem noTasksOf_taskFailedReport (jid : String) (db : DB) (tid : String)
    (ec : Int) (err : Option String) (now : Int) (h : noTasksOf jid db) :
    noTasksOf jid (taskFailedReport db tid ec err now).2 := by
  unfold taskFailedReport
  split
  · exact h
  · next task heq =>
    dsimp only
    have hbase : noTasksOf jid (releaseWorker
        (db.updateTaskStatus tid .failed none (some now) (some ec) err) task) :=
      noTasksOf_releaseWorker jid _ _
        (noTasksOf_updateTaskStatus jid db tid _ _ _ _ _ h)
    split
    · exact hbase
    · exact noTasksOf_of_tasks_eq jid _ _ (tasks_updateJob _ _) hbase

theorem noTasksOf_submitJob (jid : String) (db : DB) (pe vo : Bool) (job : Job)
    (part : Except Unit (List Task)) (pf : Option Nat)
    (hid : job.id ≠ jid) (hts : ∀ ts, part = .ok ts → ∀ t ∈ ts, t.job_id = job.id)
    (h : noTasksOf jid db) : noTasksOf jid (submitJob db pe vo job part pf).2 := by
  have haddJob : noTasksOf jid (db.addJob job) :=
    noTasksOf_of_tasks_eq jid db _ (tasks_addJob db job) h
  unfold submitJob
  split
  · exact h
  · split
    · exact h
    · cases hp : part with
      | error e =>
        exact noTasksOf_deleteJob jid _ job.id haddJob
      | ok ts =>
        have hsafe : ∀ t ∈ ts, t.job_id ≠ jid := by
          intro t ht
          rw [hts ts hp t ht]
          exact hid
        have htake : ∀ (k : Nat), ∀ t ∈ ts.take k, t.job_id ≠ jid := by
          intro k t ht
          exact hsafe t (List.mem_of_mem_take ht)
        dsimp only
        cases pf with
        | none =>
          exact noTasksOf_of_tasks_eq jid _ _ (tasks_updateJob _ _)
            (noTasksOf_addTasks_foldl jid ts _ hsafe haddJob)
        | some k =>
          dsimp only
          split
          · exact noTasksOf_deleteJob jid _ job.id
              (noTasksOf_addTasks_foldl jid _ _ (htake k) haddJob)
          · exact noTasksOf_of_tasks_eq jid _ _ (tasks_updateJob _ _)
              (noTasksOf_addTasks_foldl jid ts _ hsafe haddJob)

theorem step_noTasksOf (jid : String) (db : DB) (op : Op)
    (hop : opSafeFor jid op) (h : noTasksOf jid db) :
    noTasksOf jid (step db op) := by
  cases op with
  | submit pe vo job part pf =>
    obtain ⟨hid, hts⟩ := hop
    exact noTasksOf_submitJob jid db pe vo job part pf hid hts h
  | requestTask wid now => exact noTasksOf_requestTask jid db wid now h
  | heartbeat wid hb now =>
    show noTasksOf jid (workerHeartbeat db wid hb now).2
    unfold workerHeartbeat
    split
    · exact h
    · exact noTasksOf_of_tasks_eq jid db _ (tasks_updateWorkerHeartbeat db wid hb now) h
  | register d now =>
    exact noTasksOf_of_tasks_eq jid db _ (tasks_upsertWorker db _) h
  | sweep now => exact noTasksOf_sweepFold jid now db.getWorkers db h
  | aggregate jid2 now fus =>
    show noTasksOf jid (aggregateStep db jid2 now fus)
    unfold aggregateStep
    split
    · exact h
    · split
      · exact noTasksOf_aggregateJob jid db _ now fus h
      · exact h
  | taskStart tid now => exact noTasksOf_updateTaskStatus jid db tid _ _ _ _ _ h
  | taskProgress tid p => exact noTasksOf_updateTaskProgress jid db tid p h
  | complete tid ec now => exact noTasksOf_taskCompleted jid db tid ec now h
  | fail tid ec err now => exact noTasksOf_taskFailedReport jid db tid ec err now h
  | retryTask tid =>
    show noTasksOf jid (retryTaskEndpoint db tid).2
    unfold retryTaskEndpoint
    split
    · exact h
    · split
      · exact h
      · exact noTasksOf_updateTask jid _ _
          (noTasksOf_updateTaskStatus jid db tid _ _ _ _ _ h)
  | cancelTask tid =>
    show noTasksOf jid (cancelTaskEndpoint db tid).2
    unfold cancelTaskEndpoint
    split
    · exact h
    · split
      · exact noTasksOf_updateTaskStatus jid _ tid _ _ _ _ _
          (noTasksOf_releaseWorker jid db _ h)
      · exact h
  | suspendTask tid =>
    show noTasksOf jid (suspendTaskEndpoint db tid).2
    unfold suspendTaskEndpoint
    split
    · exact h
    · split
      · exact noTasksOf_updateTaskStatus jid _ tid _ _ _ _ _
          (noTasksOf_releaseWorker jid db _ h)
      · exact h
  | suspendJob jid2 now =>
    show noTasksOf jid (suspendJobSched db jid2 now).2
    unfold suspendJobSched
    split
    · exact h
    · split
      · exact noTasksOf_of_tasks_eq jid db _ (tasks_updateJobStatus db jid2 _ _ now) h
      · exact h
  | resumeJob jid2 now =>
    show noTasksOf jid (resumeJobSched db jid2 now).2
    unfold resumeJobSched
    split
    · exact h
    · split
      · split
        · exact noTasksOf_of_tasks_eq jid db _ (tasks_updateJobStatus db jid2 _ _ now) h
        · exact noTasksOf_of_tasks_eq jid db _ (tasks_updateJobStatus db jid2 _ _ now) h
      · exact h
  | cancelJob jid2 now =>
    show noTasksOf jid (cancelJobSched db jid2 now).2
    unfold cancelJobSched
    split
    · exact h
    · exact noTasksOf_of_tasks_eq jid db _ (tasks_updateJobStatus db jid2 _ _ now) h
  | retryJob jid2 =>
    show noTasksOf jid (retryJobSched db jid2).2
    unfold retryJobSched
    split
    · exact h
    · split
      · exact h
      · exact noTasksOf_of_tasks_eq jid _ _ (tasks_updateJob _ _)
          (noTasksOf_retryFold jid _ db h)
  | deleteJob jid2 =>
    show noTasksOf jid (deleteJobEndpoint db jid2).2
    unfold deleteJobEndpoint
    split
    · exact h
    · split
      · exact noTasksOf_deleteJob jid db jid2 h
      · exact h
  | setPriority jid2 p =>
    show noTasksOf jid (updateJobPriorityEndpoint db jid2 p).2
    unfold updateJobPriorityEndpoint
    split
    · exact h
    · split
      · exact noTasksOf_of_tasks_eq jid db _ (tasks_updateJob _ _) h
      · exact h
  | disableWorker wid =>
    show noTasksOf jid (disableWorkerEndpoint db wid).2
    unfold disableWorkerEndpoint
    split
    · exact h
    · exact noTasksOf_of_tasks_eq jid db _ (tasks_upsertWorker db _) h
  | enableWorker wid =>
    show noTasksOf jid (enableWorkerEndpoint db wid).2
    unfold enableWorkerEndpoint
    split
    · exact h
    · exact noTasksOf_of_tasks_eq jid db _ (tasks_upsertWorker db _) h
  | deleteWorker wid =>
    show noTasksOf jid (deleteWorkerEndpoint db wid).2
    unfold deleteWorkerEndpoint
    split
    · exact h
    · split
      · exact noTasksOf_of_tasks_eq jid db _ (tasks_deleteWorker db wid) h
      · exact h

theorem run_noTasksOf (jid : String) (ops : List Op) (db : DB)
    (h : noTasksOf jid db) (hops : ∀ op ∈ ops, opSafeFor jid op) :
    noTasksOf jid (run db ops) := by
  induction ops generalizing db with
  | nil => exact h
  | cons op ops ih =>
    show noTasksOf jid (run (step db op) ops)
    exact ih (step db op)
      (step_noTasksOf jid db op (hops op (List.mem_cons_self op ops)) h)
      (fun o ho => hops o (List.mem_cons_of_mem _ ho))

theorem assignTask_returns (db : DB) (w : Worker) (wid : String) (t0 : Task)
    (now : Int) (t : Task) (jres : Option Job) (db2 : DB)
    (h : assignTask db w wid t0 now = (.ok (some (t, jres)), db2)) :
    t = { t0 with status := .assigned, assigned_worker := some wid } := by
  unfold assignTask at h
  dsimp only at h
  split at h
  · rw [Prod.mk.injEq] at h
    cases h.1
    rfl
  · split at h
    · rw [Prod.mk.injEq] at h
      cases h.1
      rfl
    · rw [Prod.mk.injEq] at h
      cases h.1
      rfl

theorem requestTask_dispatch_safe (jid : String) (db : DB) (wid : String)
    (now : Int) (h : noTasksOf jid db) :
    ∀ t jres, (requestTask db wid now).1 = .ok (some (t, jres)) →
      t.job_id ≠ jid := by
  intro t jres hok
  unfold requestTask at hok
  cases hw : db.getWorker wid with
  | none => rw [hw] at hok; simp at hok
  | some w =>
    rw [hw] at hok
    dsimp only at hok
    by_cases hidle : w.status ≠ .idle
    · rw [if_pos hidle] at hok
      simp at hok
    · rw [if_neg hidle] at hok
      cases hpull : getNextTaskForWorker db w with
      | none => rw [hpull] at hok; simp at hok
      | some t0 =>
        rw [hpull] at hok
        dsimp only at hok
        have he := (Prod.mk.eta (p := assignTask db w wid t0 now)).symm
        rw [hok] at he
        have ht := assignTask_returns db w wid t0 now t jres _ he
        subst ht
        show ({ t0 with
          status := TaskStatus.assigned,
          assigned_worker := some wid } : Task).job_id ≠ jid
        have hmem : t0 ∈ db.tasks := (getNextTaskForWorker_spec db w t0 hpull).1
        exact h t0 hmem

/-- C10 counterexample: a user cancel is a coordinator operation that moves a
scheduler-created follow-up job out of status pending, refuting the claim's
"no coordinator operation ever transitions such a Job out of pending". -/
theorem claim_C10_counterexample :
    (dbC10.getJob "fj").map Job.status = some .pending ∧
    ((cancelJobSched dbC10 "fj" 7).2.getJob "fj").map Job.status =
      some .cancelled := by
  decide

/-- C10 amended: follow-up jobs are inserted with status pending, zero
task_total and no task rows; user lifecycle commands can move such a job out
of pending, but no coordinator operation creates task rows for it (with
submissions using fresh job ids and plugin-partitioned tasks carrying the
submitted job's id), and a pull returns only stored tasks — so across any
sequence of coordinator operations, no task of the follow-up job exists and
no pull ever dispatches its work to a worker. -/
theorem claim_C10_amended (jid : String) (db : DB) (ops : List Op)
    (h0 : noTasksOf jid db) (hops : ∀ op ∈ ops, opSafeFor jid op) :
    (∀ (db0 : DB) (parent : Job) (ds : List FollowUpData) (now : Int),
       (createFollowUpJobs db0 parent ds now).tasks = db0.tasks ∧
       ∀ j ∈ (createFollowUpJobs db0 parent ds now).jobs,
         j ∈ db0.jobs ∨ (j.status = .pending ∧ j.task_total = 0)) ∧
    noTasksOf jid (run db ops) ∧
    (∀ wid now t jres,
       (requestTask (run db ops) wid now).1 = .ok (some (t, jres)) →
       t.job_id ≠ jid) := by
  refine ⟨?_, ?_, ?_⟩
  · intro db0 parent ds now
    exact ⟨createFollowUpJobs_tasks db0 parent ds now,
      createFollowUpJobs_jobs db0 parent ds now⟩
  · exact run_noTasksOf jid ops db h0 hops
  · intro wid now t jres hok
    exact requestTask_dispatch_safe jid (run db ops) wid now
      (run_noTasksOf jid ops db h0 hops) t jres hok

/-- C10 witness: the concrete follow-up job "fj" is never dispatched across
a cancel followed by a worker pull. -/
theorem claim_C10_witness :
    noTasksOf "fj" (run dbC10 [Op.cancelJob "fj" 7, Op.requestTask "w" 8]) ∧
    (∀ wid now t jres,
       (requestTask (run dbC10 [Op.cancelJob "fj" 7, Op.requestTask "w" 8]) wid now).1 =
         .ok (some (t, jres)) → t.job_id ≠ "fj") := by
  have hsafe : ∀ op ∈ ([Op.cancelJob "fj" 7, Op.requestTask "w" 8] : List Op),
      opSafeFor "fj" op := by
    intro op hop
    rcases List.mem_cons.mp hop with rfl | hop2
    · trivial
    · rcases List.mem_cons.mp hop2 with rfl | hop3
      · trivial
      · cases hop3
  have hmain := claim_C10_amended "fj" dbC10
    [Op.cancelJob "fj" 7, Op.requestTask "w" 8]
    (by intro t ht; exact absurd ht (List.not_mem_nil t)) hsafe
  exact ⟨hmain.2.1, hmain.2.2⟩

end RenderQ
